import Mathlib

/-!
Duet3Expansion: the multi-channel analog sampling engine

A shallow embedding of `src/Hardware/AnalogIn.cpp`.

Modelling conventions
* `uint32_t`/`uint16_t`/`uint8_t` values are natural numbers; a reduction
  modulo `2^w` is written wherever the C++ arithmetic can wrap.
* A C array of `N` elements is a list; `a[i] = v` is `List.set` and `a[i]` is
  `List.getD`, so an access whose index is outside the list has no effect on
  the modelled fields (in C++ such an access is undefined behaviour and may
  change memory outside the array, including another unit).  Index bounds
  are therefore separate proof obligations, never consequences of the list
  operations, and a statement about what is left unchanged is faithful only
  where the indices stored to are in range.
* `millis()` is the parameter `now` of the operations that read the clock.
* Calls that leave the class (callback invocations, peripheral and DMA
  programming, `SetPinMode`, `GiveFromISR`) are appended to a trace of
  `Event`s, oldest first.  Callbacks are assumed not to re-enter the engine.
* `TaskCriticalSectionLocker` only excludes other tasks; the embedding is
  sequential.
-/

namespace Duet3Expansion

/-- The modulus of 32-bit unsigned arithmetic. -/
def twoPow32 : Nat := 4294967296

/-- The capacity `AdcClass::MaxChannels`. -/
def MaxChannels : Nat := 16

/-- The conversion state `AdcClass::State`. -/
inductive State where
  | noChannels
  | starting
  | idle
  | converting
  | ready
deriving DecidableEq, Repr

/-- Calls made by the engine to code outside `AdcClass`.  The unit concerned
is named by its sequencer DMA channel `dmaChan`. -/
inductive Event where
  /-- The call `callbackFunctions[i](callbackParams[i], results[i])`. -/
  | callback (fn param value : Nat)
  /-- The block run when the first channel is enabled: peripheral reset,
  sampling parameters, DMA sequencing and both DMA descriptors. -/
  | initAdc (dmaChan : Nat)
  /-- Re-arming of the result reader (`dmaChan + 1`) for `len` results. -/
  | armResultReader (dmaChan len : Nat)
  /-- Re-arming of the sequencer (`dmaChan`) for `len` register words. -/
  | armSequencer (dmaChan len : Nat)
  /-- The store `DMAC->Channel[dmaChan].CHCTRLA.bit.ENABLE = 0`. -/
  | disableSequencer (dmaChan : Nat)
  /-- The call `taskToWake->GiveFromISR()`. -/
  | giveFromISR (task : Nat)
  /-- The call `IoPort::SetPinMode(pin, AIN)`. -/
  | setPinModeAIN (pin : Nat)
deriving DecidableEq, Repr

/-- Constants of the device header used by `AnalogIn.cpp` whose definitions
are not part of the sources; they are parameters of the embedding. -/
structure HwConsts where
  ADC_INPUTCTRL_MUXNEG_GND : Nat
  ADC_REFCTRL_REFSEL_INTVCC1 : Nat
  ADC_INPUTCTRL_MUXPOS_PTAT_Val : Nat
deriving DecidableEq, Repr

/-- The file-level statics `conversionsStarted` and `conversionsCompleted`
together with the trace of outside calls. -/
structure Env where
  conversionsStarted : Nat
  conversionsCompleted : Nat
  trace : List Event
deriving DecidableEq, Repr

/-- The data members of `class AdcClass`.  A null function pointer or task
pointer is `none`. -/
structure AdcClass where
  device : Nat
  irqn : Nat
  dmaChan : Nat
  trigSrc : Nat
  numChannelsEnabled : Nat
  channelsEnabled : Nat
  taskToWake : Option Nat
  state : State
  justStarted : Bool
  callbackFunctions : List (Option Nat)
  callbackParams : List Nat
  ticksPerCall : List Nat
  ticksAtLastCall : List Nat
  inputRegisters : List Nat
  results : List Nat
  resultsByChannel : List Nat
  channelNumbers : List Nat
deriving DecidableEq, Repr

/-- The array members have their declared sizes. -/
def AdcClass.Sized (adc : AdcClass) : Prop :=
  adc.callbackFunctions.length = MaxChannels ∧
  adc.callbackParams.length = MaxChannels ∧
  adc.ticksPerCall.length = MaxChannels ∧
  adc.ticksAtLastCall.length = MaxChannels ∧
  adc.inputRegisters.length = MaxChannels * 2 ∧
  adc.results.length = MaxChannels ∧
  adc.resultsByChannel.length = MaxChannels ∧
  adc.channelNumbers.length = MaxChannels

instance (adc : AdcClass) : Decidable adc.Sized := by
  unfold AdcClass.Sized; infer_instance

/-- The constructor `AdcClass::AdcClass`.  The objects have static storage,
so the members the constructor does not mention start as zero. -/
def AdcClass.new (p_device p_irqn p_dmaChan p_trigSrc : Nat) : AdcClass :=
  { device := p_device
    irqn := p_irqn
    dmaChan := p_dmaChan
    trigSrc := p_trigSrc
    numChannelsEnabled := 0
    channelsEnabled := 0
    taskToWake := none
    state := State.noChannels
    justStarted := false
    callbackFunctions := List.replicate MaxChannels none
    callbackParams := List.replicate MaxChannels 0
    ticksPerCall := List.replicate MaxChannels 0
    ticksAtLastCall := List.replicate MaxChannels 0
    inputRegisters := List.replicate (MaxChannels * 2) 0
    results := List.replicate MaxChannels 0
    resultsByChannel := List.replicate MaxChannels 0
    channelNumbers := List.replicate MaxChannels 0 }

/-- The accessor `AdcClass::GetState`. -/
def AdcClass.GetState (adc : AdcClass) : State := adc.state

/-- The accessor `AdcClass::ReadChannel`: `resultsByChannel[chan]`. -/
def AdcClass.ReadChannel (adc : AdcClass) (chan : Nat) : Nat :=
  adc.resultsByChannel.getD chan 0

/-- The value of `1ul << chan` as a 32-bit quantity. -/
def bit32 (chan : Nat) : Nat := (1 <<< chan) % twoPow32

/-- The method `AdcClass::IsChannelEnabled`. -/
def AdcClass.IsChannelEnabled (adc : AdcClass) (chan : Nat) : Bool :=
  (adc.channelsEnabled &&& bit32 chan) != 0

/-- The method `AdcClass::InternalEnableChannel`.  The parameter `refCtrl`
is a `uint8_t`, so the argument is reduced modulo 256 on entry.  For
`chan >= 16` (reached only from `EnableTemperatureSensor`) the store
`resultsByChannel[chan] = 0` is outside the array: the C++ code then writes
past the end of the unit, which this definition does not represent (the
members of the unit are left as they are); it is faithful for `chan < 16`.
The indices stored to are listed by `AdcClass.InternalEnableChannel.stores`. -/
def AdcClass.InternalEnableChannel (K : HwConsts) (now : Nat) (adc : AdcClass) (env : Env)
    (chan refCtrl : Nat) (fn : Option Nat) (param p_ticksPerCall : Nat) :
    Bool × AdcClass × Env :=
  let n := adc.numChannelsEnabled
  let adc1 : AdcClass :=
    { adc with
      callbackFunctions := adc.callbackFunctions.set n fn
      callbackParams := adc.callbackParams.set n param
      ticksPerCall := adc.ticksPerCall.set n p_ticksPerCall
      ticksAtLastCall := adc.ticksAtLastCall.set n now
      inputRegisters :=
        (adc.inputRegisters.set (n * 2) (K.ADC_INPUTCTRL_MUXNEG_GND ||| chan)).set
          (n * 2 + 1) ((refCtrl % 256) ||| chan)
      channelNumbers := adc.channelNumbers.set n (chan % 256)
      resultsByChannel := adc.resultsByChannel.set chan 0
      numChannelsEnabled := n + 1
      channelsEnabled := adc.channelsEnabled ||| bit32 chan }
  if adc1.numChannelsEnabled = 1 then
    (true, { adc1 with state := State.starting },
      { env with trace := env.trace ++ [Event.initAdc adc.dmaChan] })
  else
    (true, adc1, env)

/-- The method `AdcClass::EnableChannel`. -/
def AdcClass.EnableChannel (K : HwConsts) (now : Nat) (adc : AdcClass) (env : Env)
    (chan : Nat) (fn : Option Nat) (param p_ticksPerCall : Nat) : Bool × AdcClass × Env :=
  if adc.numChannelsEnabled = MaxChannels ∨ chan ≥ MaxChannels then
    (false, adc, env)
  else
    adc.InternalEnableChannel K now env chan K.ADC_REFCTRL_REFSEL_INTVCC1 fn param p_ticksPerCall

/-- The method `AdcClass::EnableTemperatureSensor`. -/
def AdcClass.EnableTemperatureSensor (K : HwConsts) (now : Nat) (adc : AdcClass) (env : Env)
    (sensorNumber : Nat) (fn : Option Nat) (param p_ticksPerCall : Nat) :
    Bool × AdcClass × Env :=
  if adc.numChannelsEnabled = MaxChannels ∨ sensorNumber ≥ 2 then
    (false, adc, env)
  else
    adc.InternalEnableChannel K now env
      ((sensorNumber + K.ADC_INPUTCTRL_MUXPOS_PTAT_Val) % twoPow32)
      K.ADC_REFCTRL_REFSEL_INTVCC1 fn param p_ticksPerCall

/-- The method `AdcClass::StartConversion`. -/
def AdcClass.StartConversion (adc : AdcClass) (env : Env) (p_taskToWake : Option Nat) :
    Bool × AdcClass × Env :=
  if adc.numChannelsEnabled = 0 ∨ adc.state = State.converting then
    (false, adc, env)
  else
    (true,
      { adc with taskToWake := p_taskToWake, state := State.converting },
      { env with
        conversionsStarted := (env.conversionsStarted + 1) % twoPow32
        trace := env.trace ++
          [Event.armResultReader adc.dmaChan adc.numChannelsEnabled,
           Event.armSequencer adc.dmaChan (adc.numChannelsEnabled * 2)] })

/-- The 32-bit unsigned difference `a - b` for `b < 2^32`. -/
def sub32 (a b : Nat) : Nat := (a + twoPow32 - b) % twoPow32

/-- One iteration of the loop of `AdcClass::ExecuteCallbacks`, for slot `i`. -/
def AdcClass.ExecuteCallbacks.body (now : Nat) (acc : AdcClass × Env) (i : Nat) :
    AdcClass × Env :=
  let adc := acc.1
  let env := acc.2
  let adc1 : AdcClass :=
    { adc with resultsByChannel := adc.resultsByChannel.set i (adc.results.getD i 0) }
  if sub32 now (adc1.ticksAtLastCall.getD i 0) ≥ adc1.ticksPerCall.getD i 0 then
    let adc2 : AdcClass := { adc1 with ticksAtLastCall := adc1.ticksAtLastCall.set i now }
    match adc2.callbackFunctions.getD i none with
    | some f =>
      (adc2, { env with trace := env.trace ++
        [Event.callback f (adc2.callbackParams.getD i 0) (adc2.results.getD i 0)] })
    | none => (adc2, env)
  else
    (adc1, env)

/-- The method `AdcClass::ExecuteCallbacks`: the loop body for
`i = 0, ..., numChannelsEnabled - 1`. -/
def AdcClass.ExecuteCallbacks (now : Nat) (adc : AdcClass) (env : Env) : AdcClass × Env :=
  (List.range adc.numChannelsEnabled).foldl (AdcClass.ExecuteCallbacks.body now) (adc, env)

/-- The method `AdcClass::ResultReadyCallback`. -/
def AdcClass.ResultReadyCallback (adc : AdcClass) (env : Env) : AdcClass × Env :=
  let adc1 : AdcClass := { adc with state := State.ready }
  let env1 : Env :=
    { env with
      conversionsCompleted := (env.conversionsCompleted + 1) % twoPow32
      trace := env.trace ++ [Event.disableSequencer adc.dmaChan] }
  match adc.taskToWake with
  | some t => (adc1, { env1 with trace := env1.trace ++ [Event.giveFromISR t] })
  | none => (adc1, env1)

/-- The result-reader DMA transfer of one scan: the codes are stored into
`results[0]`, `results[1]`, ... in conversion order, up to the size of the
array.  This is the action of the hardware between `StartConversion` and
the completion interrupt. -/
def AdcClass.dmaDrain (adc : AdcClass) (codes : List Nat) : AdcClass :=
  { adc with
    results := (codes.take adc.results.length).map (fun c => c % 65536) ++
      adc.results.drop codes.length }

/-- The firing condition as the specification words it: the difference
`now - last`, taken modulo `2^32`, is at least `interval`. -/
def Spec.shouldFire (now last interval : Nat) : Prop :=
  (interval : Int) ≤ ((now : Int) - (last : Int)) % 4294967296

instance (now last interval : Nat) : Decidable (Spec.shouldFire now last interval) := by
  unfold Spec.shouldFire; infer_instance

/-- The operations on one converter unit that a trace is made of. -/
inductive Op where
  | EnableChannel (now chan : Nat) (fn : Option Nat) (param ticksPerCall : Nat)
  | EnableTemperatureSensor (now sensorNumber : Nat) (fn : Option Nat) (param ticksPerCall : Nat)
  | StartConversion (p_taskToWake : Option Nat)
  | ExecuteCallbacks (now : Nat)
  /-- The scan completes: the result reader has stored `codes` and the DMA
  interrupt calls `ResultReadyCallback`. -/
  | ResultReadyCallback (codes : List Nat)
deriving DecidableEq, Repr

/-- Whether the operation is the completion interrupt. -/
def Op.isResultReady : Op → Bool
  | Op.ResultReadyCallback _ => true
  | _ => false

/-- The effect of one operation on a unit; the Boolean is the value the
call returns (`true` for the `void` operations). -/
def Op.apply (K : HwConsts) (op : Op) (adc : AdcClass) (env : Env) : Bool × AdcClass × Env :=
  match op with
  | Op.EnableChannel now chan fn param t => adc.EnableChannel K now env chan fn param t
  | Op.EnableTemperatureSensor now sn fn param t =>
    adc.EnableTemperatureSensor K now env sn fn param t
  | Op.StartConversion p => adc.StartConversion env p
  | Op.ExecuteCallbacks now => (true, adc.ExecuteCallbacks now env)
  | Op.ResultReadyCallback codes => (true, (adc.dmaDrain codes).ResultReadyCallback env)

/-- The unit and environment after a sequence of operations. -/
def run (K : HwConsts) : List Op → AdcClass × Env → AdcClass × Env
  | [], s => s
  | op :: ops, s => run K ops (op.apply K s.1 s.2).2

/-- The board description used by the pin-level interface: the size of
`PinTable`, `IoPort::PinToAdcInput` (`none` is `AdcInput::none`) and the two
decoders of an `AdcInput`.  Their definitions are not part of the sources;
they are parameters of the embedding. -/
structure Board where
  pinTableSize : Nat
  PinToAdcInput : Nat → Option Nat
  GetDeviceNumber : Nat → Nat
  GetInputNumber : Nat → Nat

/-- The table `Adcs` of converter units with the file-level statics. -/
structure System where
  Adcs : List AdcClass
  env : Env
deriving DecidableEq, Repr

/-- The function `AnalogIn::EnableChannel`.  The result is `none` when
`GetDeviceNumber` indexes outside `Adcs`. -/
def AnalogIn.EnableChannel (B : Board) (K : HwConsts) (now : Nat) (sys : System)
    (pin : Nat) (fn : Option Nat) (param ticksPerCall : Nat) : Option (Bool × System) :=
  if pin < B.pinTableSize then
    match B.PinToAdcInput pin with
    | some adcin =>
      let env1 : Env := { sys.env with trace := sys.env.trace ++ [Event.setPinModeAIN pin] }
      match sys.Adcs[B.GetDeviceNumber adcin]? with
      | some adc =>
        let r := adc.EnableChannel K now env1 (B.GetInputNumber adcin) fn param ticksPerCall
        some (r.1, { Adcs := sys.Adcs.set (B.GetDeviceNumber adcin) r.2.1, env := r.2.2 })
      | none => none
    | none => some (false, sys)
  else
    some (false, sys)

/-- The function `AnalogIn::IsChannelEnabled`. -/
def AnalogIn.IsChannelEnabled (B : Board) (sys : System) (pin : Nat) : Option Bool :=
  if pin < B.pinTableSize then
    match B.PinToAdcInput pin with
    | some adcin =>
      (sys.Adcs[B.GetDeviceNumber adcin]?).map
        (fun adc => adc.IsChannelEnabled (B.GetInputNumber adcin))
    | none => some false
  else
    some false

/-- The function `AnalogIn::ReadChannel`. -/
def AnalogIn.ReadChannel (B : Board) (sys : System) (adcin : Option Nat) : Option Nat :=
  match adcin with
  | some a => (sys.Adcs[B.GetDeviceNumber a]?).map (fun adc => adc.ReadChannel (B.GetInputNumber a))
  | none => some 0

/-- The `while` loop of `AnalogIn::EnableTemperatureSensor`, entered at
`adcnum` with `left = ARRAY_SIZE(Adcs) - adcnum` units still to try. -/
def AnalogIn.EnableTemperatureSensor.probe (K : HwConsts) (now sensorNumber : Nat)
    (fn : Option Nat) (param ticksPerCall : Nat) : Nat → Nat → System → Bool × System
  | 0, _, sys => (false, sys)
  | left + 1, adcnum, sys =>
    match sys.Adcs[adcnum]? with
    | some adc =>
      let r := adc.EnableTemperatureSensor K now sys.env sensorNumber fn param ticksPerCall
      let sys1 : System := { Adcs := sys.Adcs.set adcnum r.2.1, env := r.2.2 }
      if r.1 then (true, sys1)
      else AnalogIn.EnableTemperatureSensor.probe K now sensorNumber fn param ticksPerCall
        left (adcnum + 1) sys1
    | none => (false, sys)

/-- The function `AnalogIn::EnableTemperatureSensor`. -/
def AnalogIn.EnableTemperatureSensor (K : HwConsts) (now : Nat) (sys : System)
    (sensorNumber : Nat) (fn : Option Nat) (param ticksPerCall : Nat) (adcnum : Int) :
    Bool × System :=
  if adcnum = -1 then
    AnalogIn.EnableTemperatureSensor.probe K now sensorNumber fn param ticksPerCall
      sys.Adcs.length 0 sys
  else if 0 ≤ adcnum ∧ adcnum < (sys.Adcs.length : Int) then
    match sys.Adcs[adcnum.toNat]? with
    | some adc =>
      let r := adc.EnableTemperatureSensor K now sys.env sensorNumber fn param ticksPerCall
      (r.1, { Adcs := sys.Adcs.set adcnum.toNat r.2.1, env := r.2.2 })
    | none => (false, sys)
  else
    (false, sys)

/-- The function `AnalogIn::GetDebugInfo`. -/
def AnalogIn.GetDebugInfo (sys : System) : Nat × Nat :=
  (sys.env.conversionsStarted, sys.env.conversionsCompleted)

/-- Constants used in examples; the values are those of the SAME51 device
header (`MUXNEG_GND = 0x18 << 8`, `REFSEL_INTVCC1 = 3`, `MUXPOS_PTAT = 0x1C`). -/
def same51 : HwConsts :=
  { ADC_INPUTCTRL_MUXNEG_GND := 6144
    ADC_REFCTRL_REFSEL_INTVCC1 := 3
    ADC_INPUTCTRL_MUXPOS_PTAT_Val := 28 }

/-- The unit `Adc0` as constructed. -/
def Adc0 : AdcClass := AdcClass.new 0 0 4 0

/-- The unit `Adc1` as constructed. -/
def Adc1 : AdcClass := AdcClass.new 1 1 6 1

/-- The environment at start-up. -/
def Env.start : Env := { conversionsStarted := 0, conversionsCompleted := 0, trace := [] }

/-- The unit `Adc0` after channel 5 alone has been enabled, one scan has
delivered the code 1234 for it and `ExecuteCallbacks` has run. -/
def scanOfChannel5 : AdcClass × Env :=
  run same51
    [Op.EnableChannel 0 5 none 0 0, Op.StartConversion none,
     Op.ResultReadyCallback [1234], Op.ExecuteCallbacks 10] (Adc0, Env.start)

/-- The unit `Adc0` after channels 7 and 2 have been enabled in that order,
one scan has delivered the codes 111 and 222 and `ExecuteCallbacks` has
run. -/
def scanOfChannels7And2 : AdcClass × Env :=
  run same51
    [Op.EnableChannel 0 7 none 0 0, Op.EnableChannel 0 2 none 0 0, Op.StartConversion none,
     Op.ResultReadyCallback [111, 222], Op.ExecuteCallbacks 10] (Adc0, Env.start)

/-- A unit with two enabled slots (channels 7 and 2, intervals 0 and 100)
after one completed scan. -/
def twoSlotUnit : AdcClass × Env :=
  run same51
    [Op.EnableChannel 0 7 (some 1) 11 0, Op.EnableChannel 0 2 (some 2) 22 100,
     Op.StartConversion (some 9), Op.ResultReadyCallback [111, 222]] (Adc0, Env.start)

/-- The unit `Adc0` after channel 5 has been enabled. -/
def oneSlotUnit : AdcClass × Env :=
  (Op.apply same51 (Op.EnableChannel 0 5 none 0 0) Adc0 Env.start).2

/-- A sequence of operations without a completion interrupt: two enable
calls, a dispatch pass and an attempt to start a scan. -/
def enableAndDispatch : List Op :=
  [Op.EnableChannel 1 6 none 0 0, Op.EnableTemperatureSensor 2 0 none 0 0,
   Op.ExecuteCallbacks 3, Op.StartConversion (some 1)]

/-- A unit whose sixteen slots are all taken. -/
def fullUnit : AdcClass × Env :=
  run same51 (List.replicate 16 (Op.EnableChannel 0 3 none 0 0)) (Adc0, Env.start)

/-- A board with ten pins; pin `p` is ADC input `p`, the device number is
the high nibble of an input and the input number its low nibble. -/
def demoBoard : Board :=
  { pinTableSize := 10
    PinToAdcInput := fun p => some p
    GetDeviceNumber := fun a => a / 16
    GetInputNumber := fun a => a % 16 }

/-- A system whose first unit is full. -/
def fullSystem : System := { Adcs := [fullUnit.1, Adc1], env := fullUnit.2 }

/-- The `switch` of `AinLoop` for one unit.  The Boolean tells whether this
visit executed `conversionStarted = true`; the value `StartConversion`
returns is discarded, as in the source. -/
def AnalogIn.AinLoop.visit (now analogInTask : Nat) (adc : AdcClass) (env : Env) :
    Bool × AdcClass × Env :=
  match adc.GetState with
  | State.ready =>
    let x := adc.ExecuteCallbacks now env
    let r := x.1.StartConversion x.2 (some analogInTask)
    (true, r.2.1, r.2.2)
  | State.idle =>
    let r := adc.StartConversion env (some analogInTask)
    (true, r.2.1, r.2.2)
  | State.starting =>
    let r := adc.StartConversion env (some analogInTask)
    (true, r.2.1, r.2.2)
  | _ => (false, adc, env)

/-- One iteration of the inner `for` loop of `AinLoop`, for `Adcs[i]`.  The
first component is the local `conversionStarted`; `clock i` is the value
of `millis()` while unit `i` is visited. -/
def AnalogIn.AinLoop.body (clock : Nat → Nat) (analogInTask : Nat) (acc : Bool × System)
    (i : Nat) : Bool × System :=
  match acc.2.Adcs[i]? with
  | some adc =>
    let v := AnalogIn.AinLoop.visit (clock i) analogInTask adc acc.2.env
    (acc.1 || v.1, { Adcs := acc.2.Adcs.set i v.2.1, env := v.2.2 })
  | none => acc

/-- The inner `for` loop of `AinLoop`: `conversionStarted = false`, then
the units `0, ..., ARRAY_SIZE(Adcs) - 1` in order. -/
def AnalogIn.AinLoop.sweep (clock : Nat → Nat) (analogInTask : Nat) (sys : System) :
    Bool × System :=
  (List.range sys.Adcs.length).foldl (AnalogIn.AinLoop.body clock analogInTask) (false, sys)

/-- What the task does after a sweep. -/
inductive Wait where
  /-- The calls `TaskBase::Take(timeout)` and then `delay(delayAfter)`. -/
  | blocking (timeout delayAfter : Nat)
  /-- The call `delay(ticks)`. -/
  | backoff (ticks : Nat)
deriving DecidableEq, Repr

/-- One iteration of the outer `for (;;)` loop of `AinLoop`: the sweep and
the wait chosen after it. -/
def AnalogIn.AinLoop.iteration (clock : Nat → Nat) (analogInTask : Nat) (sys : System) :
    Wait × System :=
  let r := AnalogIn.AinLoop.sweep clock analogInTask sys
  if r.1 then (Wait.blocking 500 2, r.2) else (Wait.backoff 10, r.2)

/-- The array members of `AdcClass` that `InternalEnableChannel` stores to. -/
inductive Table where
  | callbackFunctions
  | callbackParams
  | ticksPerCall
  | ticksAtLastCall
  | inputRegisters
  | channelNumbers
  | resultsByChannel
deriving DecidableEq, Repr

/-- The declared number of elements of each array member. -/
def Table.size : Table → Nat
  | Table.inputRegisters => MaxChannels * 2
  | _ => MaxChannels

/-- The array stores of `AdcClass::InternalEnableChannel`, in program order,
each as the array and the index stored to. -/
def AdcClass.InternalEnableChannel.stores (adc : AdcClass) (chan : Nat) : List (Table × Nat) :=
  [(Table.callbackFunctions, adc.numChannelsEnabled),
   (Table.callbackParams, adc.numChannelsEnabled),
   (Table.ticksPerCall, adc.numChannelsEnabled),
   (Table.ticksAtLastCall, adc.numChannelsEnabled),
   (Table.inputRegisters, adc.numChannelsEnabled * 2),
   (Table.inputRegisters, adc.numChannelsEnabled * 2 + 1),
   (Table.channelNumbers, adc.numChannelsEnabled),
   (Table.resultsByChannel, chan)]

/-- The shift amount of `channelsEnabled |= 1ul << chan` in
`AdcClass::InternalEnableChannel`. -/
def AdcClass.InternalEnableChannel.shift (chan : Nat) : Nat := chan

/-- The array stores of a call of `AdcClass::EnableChannel`. -/
def AdcClass.EnableChannel.stores (adc : AdcClass) (chan : Nat) : List (Table × Nat) :=
  if adc.numChannelsEnabled = MaxChannels ∨ chan ≥ MaxChannels then []
  else AdcClass.InternalEnableChannel.stores adc chan

/-- The array stores of a call of `AdcClass::EnableTemperatureSensor`. -/
def AdcClass.EnableTemperatureSensor.stores (K : HwConsts) (adc : AdcClass)
    (sensorNumber : Nat) : List (Table × Nat) :=
  if adc.numChannelsEnabled = MaxChannels ∨ sensorNumber ≥ 2 then []
  else AdcClass.InternalEnableChannel.stores adc
    ((sensorNumber + K.ADC_INPUTCTRL_MUXPOS_PTAT_Val) % twoPow32)

/-- The array stores an operation makes when it is an enable call (none for
the other operations). -/
def Op.enableStores (K : HwConsts) (op : Op) (adc : AdcClass) : List (Table × Nat) :=
  match op with
  | Op.EnableChannel _ chan _ _ _ => AdcClass.EnableChannel.stores adc chan
  | Op.EnableTemperatureSensor _ sn _ _ _ => AdcClass.EnableTemperatureSensor.stores K adc sn
  | _ => []

/-- The array stores made by the enable calls of a sequence of operations,
each taken in the state the call is made in. -/
def runEnableStores (K : HwConsts) : List Op → AdcClass × Env → List (Table × Nat)
  | [], _ => []
  | op :: ops, s => op.enableStores K s.1 ++ runEnableStores K ops (op.apply K s.1 s.2).2

/-- Whether the operation may happen in the state of the unit: the
completion interrupt is delivered only while a scan is in progress. -/
def Op.admissible (op : Op) (adc : AdcClass) : Bool :=
  match op with
  | Op.ResultReadyCallback _ => decide (adc.state = State.converting)
  | _ => true

/-- Whether every operation of the sequence is admissible in the state it
is applied to. -/
def runAdmissible (K : HwConsts) : List Op → AdcClass × Env → Bool
  | [], _ => true
  | op :: ops, s => op.admissible s.1 && runAdmissible K ops (op.apply K s.1 s.2).2

/-- A sequence of operations: two enable calls, then two complete scans
with a dispatch pass after each. -/
def twoScans : List Op :=
  [Op.EnableChannel 0 5 (some 1) 0 0, Op.EnableTemperatureSensor 1 0 none 0 100,
   Op.StartConversion (some 9), Op.ResultReadyCallback [100, 200], Op.ExecuteCallbacks 20,
   Op.StartConversion (some 9), Op.ResultReadyCallback [101, 201], Op.ExecuteCallbacks 40]

end Duet3Expansion

/-! ## Theorems -/

namespace Duet3Expansion

/-! ### Reading results by channel number (C1, C2) -/

/-- C1, evaluated at a failing input.  Channel 5 is the only channel enabled
on `Adc0`; one scan delivers the code 1234 for it and `ExecuteCallbacks`
runs.  Channel 0 has never been enabled (its bit in `channelsEnabled` is
clear), yet `ReadChannel 0` returns 1234, the code sampled for channel 5:
the loop stores `results[i]` at the slot index `i`, not at the channel
number of slot `i`. -/
theorem C1_unenabled_channel_reads_foreign_code :
    scanOfChannel5.1.IsChannelEnabled 0 = false ∧ scanOfChannel5.1.channelNumbers.getD 0 0 = 5 ∧
      scanOfChannel5.1.results.getD 0 0 = 1234 ∧ scanOfChannel5.1.ReadChannel 0 = 1234 := by
  decide

/-- C2, evaluated at a failing input.  Channels 7 and 2 are enabled on
`Adc0` in that order (slots 0 and 1, distinct channel numbers); the scan
delivers the codes 111 and 222.  After `ExecuteCallbacks` the reads by
channel number return 0 for both channels instead of the codes of their
slots, because the codes were stored at the indices 0 and 1. -/
theorem C2_enabled_channels_miss_their_codes :
    scanOfChannels7And2.1.numChannelsEnabled = 2 ∧
      scanOfChannels7And2.1.channelNumbers.getD 0 0 = 7 ∧
      scanOfChannels7And2.1.channelNumbers.getD 1 0 = 2 ∧
      scanOfChannels7And2.1.results.getD 0 0 = 111 ∧
      scanOfChannels7And2.1.results.getD 1 0 = 222 ∧
      scanOfChannels7And2.1.ReadChannel 7 = 0 ∧ scanOfChannels7And2.1.ReadChannel 2 = 0 ∧
      scanOfChannels7And2.1.ReadChannel 0 = 111 ∧ scanOfChannels7And2.1.ReadChannel 1 = 222 := by
  decide

/-! ### The firing rule of `ExecuteCallbacks` (C3) -/

theorem le_sub32_iff_shouldFire (now last interval : Nat) (hnow : now < twoPow32)
    (hlast : last < twoPow32) :
    interval ≤ sub32 now last ↔ Spec.shouldFire now last interval := by
  unfold sub32 Spec.shouldFire twoPow32 at *
  omega

theorem getD_set_nat {α : Type} (l : List α) (i j : Nat) (a d : α) :
    (l.set i a).getD j d = if i = j ∧ i < l.length then a else l.getD j d := by
  simp only [List.getD_eq_getElem?_getD, List.getElem?_set]
  by_cases h : i = j
  · subst h
    by_cases h2 : i < l.length
    · simp [h2]
    · simp [h2, List.getElem?_eq_none (Nat.le_of_not_lt h2)]
  · simp [h]

/-- What one loop iteration of `ExecuteCallbacks` does to the fields the
firing rule is about. -/
theorem ExecuteCallbacks_body_spec (now : Nat) (a : AdcClass) (e : Env) (i : Nat)
    (hnow : now < twoPow32) (hlast : a.ticksAtLastCall.getD i 0 < twoPow32) :
    (AdcClass.ExecuteCallbacks.body now (a, e) i).1.results = a.results ∧
    (AdcClass.ExecuteCallbacks.body now (a, e) i).1.callbackFunctions = a.callbackFunctions ∧
    (AdcClass.ExecuteCallbacks.body now (a, e) i).1.callbackParams = a.callbackParams ∧
    (AdcClass.ExecuteCallbacks.body now (a, e) i).1.ticksPerCall = a.ticksPerCall ∧
    (AdcClass.ExecuteCallbacks.body now (a, e) i).1.ticksAtLastCall =
      (if Spec.shouldFire now (a.ticksAtLastCall.getD i 0) (a.ticksPerCall.getD i 0)
       then a.ticksAtLastCall.set i now else a.ticksAtLastCall) ∧
    (AdcClass.ExecuteCallbacks.body now (a, e) i).2.trace = e.trace ++
      (if Spec.shouldFire now (a.ticksAtLastCall.getD i 0) (a.ticksPerCall.getD i 0) then
        ((a.callbackFunctions.getD i none).map (fun f =>
          Event.callback f (a.callbackParams.getD i 0) (a.results.getD i 0))).toList
       else []) := by
  have hiff := le_sub32_iff_shouldFire now (a.ticksAtLastCall.getD i 0) (a.ticksPerCall.getD i 0)
    hnow hlast
  by_cases hf : Spec.shouldFire now (a.ticksAtLastCall.getD i 0) (a.ticksPerCall.getD i 0)
  · have hle := hiff.mpr hf
    cases hc : a.callbackFunctions.getD i none with
    | none => simp [-List.getD_eq_getElem?_getD, AdcClass.ExecuteCallbacks.body, hf, hle, hc]
    | some f => simp [-List.getD_eq_getElem?_getD, AdcClass.ExecuteCallbacks.body, hf, hle, hc]
  · have hle : ¬ a.ticksPerCall.getD i 0 ≤ sub32 now (a.ticksAtLastCall.getD i 0) :=
      fun h => hf (hiff.mp h)
    simp [-List.getD_eq_getElem?_getD, AdcClass.ExecuteCallbacks.body, hf, hle]

/-- The loop of `ExecuteCallbacks` after the slots `0, ..., k - 1`. -/
theorem ExecuteCallbacks_fold (now : Nat) (adc : AdcClass) (env : Env) (hnow : now < twoPow32)
    (hlast : ∀ j, adc.ticksAtLastCall.getD j 0 < twoPow32) (k : Nat)
    (hk : k ≤ adc.ticksAtLastCall.length) :
    ((List.range k).foldl (AdcClass.ExecuteCallbacks.body now) (adc, env)).1.results = adc.results ∧
    ((List.range k).foldl (AdcClass.ExecuteCallbacks.body now) (adc, env)).1.callbackFunctions
      = adc.callbackFunctions ∧
    ((List.range k).foldl (AdcClass.ExecuteCallbacks.body now) (adc, env)).1.callbackParams
      = adc.callbackParams ∧
    ((List.range k).foldl (AdcClass.ExecuteCallbacks.body now) (adc, env)).1.ticksPerCall
      = adc.ticksPerCall ∧
    ((List.range k).foldl (AdcClass.ExecuteCallbacks.body now) (adc, env)).1.ticksAtLastCall.length
      = adc.ticksAtLastCall.length ∧
    (∀ j, ((List.range k).foldl (AdcClass.ExecuteCallbacks.body now)
        (adc, env)).1.ticksAtLastCall.getD j 0 =
      if j < k ∧ Spec.shouldFire now (adc.ticksAtLastCall.getD j 0) (adc.ticksPerCall.getD j 0)
      then now else adc.ticksAtLastCall.getD j 0) ∧
    ((List.range k).foldl (AdcClass.ExecuteCallbacks.body now) (adc, env)).2.trace =
      env.trace ++ (List.range k).filterMap (fun i =>
        if Spec.shouldFire now (adc.ticksAtLastCall.getD i 0) (adc.ticksPerCall.getD i 0) then
          (adc.callbackFunctions.getD i none).map (fun f =>
            Event.callback f (adc.callbackParams.getD i 0) (adc.results.getD i 0))
        else none) := by
  induction k with
  | zero => simp
  | succ k ih =>
    obtain ⟨h1, h2, h3, h4, h5, h6, h7⟩ := ih (by omega)
    rw [List.range_succ, List.foldl_append, List.filterMap_append]
    generalize (List.range k).foldl (AdcClass.ExecuteCallbacks.body now) (adc, env) = acc at *
    obtain ⟨a, e⟩ := acc
    simp only at h1 h2 h3 h4 h5 h6 h7
    have hk6 : a.ticksAtLastCall.getD k 0 = adc.ticksAtLastCall.getD k 0 := by
      rw [h6 k]; simp
    obtain ⟨b1, b2, b3, b4, b5, b6⟩ := ExecuteCallbacks_body_spec now a e k hnow
      (by rw [hk6]; exact hlast k)
    simp only [List.foldl_cons, List.foldl_nil]
    rw [hk6, h4] at b5 b6
    rw [h1, h2, h3] at b6
    refine ⟨b1.trans h1, b2.trans h2, b3.trans h3, b4.trans h4, ?_, ?_, ?_⟩
    · rw [b5]; split <;> simp [h5]
    · intro j
      rw [b5]
      by_cases hf : Spec.shouldFire now (adc.ticksAtLastCall.getD k 0) (adc.ticksPerCall.getD k 0)
      · rw [if_pos hf, getD_set_nat, h6 j, h5]
        by_cases hjk : k = j
        · subst hjk
          have hlt : k < adc.ticksAtLastCall.length := by omega
          simp [-List.getD_eq_getElem?_getD, hf, hlt]
        · have hiff : j < k + 1 ↔ j < k := by omega
          simp [-List.getD_eq_getElem?_getD, hjk, hiff]
      · rw [if_neg hf, h6 j]
        by_cases hjk : k = j
        · subst hjk
          simp [-List.getD_eq_getElem?_getD, hf]
        · have hiff : j < k + 1 ↔ j < k := by omega
          simp [-List.getD_eq_getElem?_getD, hiff]
    · rw [b6, h7, List.append_assoc]
      congr 1
      congr 1
      by_cases hf : Spec.shouldFire now (adc.ticksAtLastCall.getD k 0) (adc.ticksPerCall.getD k 0)
      · cases hc : adc.callbackFunctions.getD k none <;>
          simp [-List.getD_eq_getElem?_getD, hf, hc]
      · simp [-List.getD_eq_getElem?_getD, hf]

theorem getD_lt_of_forall_mem (l : List Nat) (b : Nat) (hb : 0 < b) (h : ∀ t ∈ l, t < b)
    (j : Nat) : l.getD j 0 < b := by
  rw [List.getD_eq_getElem?_getD]
  cases hj : l[j]? with
  | none => simpa using hb
  | some t => simpa using h t (List.getElem?_mem hj)

/-- C3. For a unit whose arrays have their declared sizes and whose count is
at most 16, and a clock value and last-call times below `2^32`: after
`ExecuteCallbacks` every enabled slot `i` has `ticksAtLastCall[i] = now` if
`(now - ticksAtLastCall[i]) mod 2^32 >= ticksPerCall[i]` and its old value
otherwise; the callbacks invoked are, in slot order, exactly those of the
slots for which that condition holds and whose function pointer is
non-null, each called with its parameter and `results[i]`; and for a slot
with interval 0 the condition always holds, so its last-call time is set
to `now` on every pass. -/
theorem C3_ExecuteCallbacks_firing_rule (now : Nat) (adc : AdcClass) (env : Env)
    (hs : adc.Sized) (hn : adc.numChannelsEnabled ≤ 16) (hnow : now < 4294967296)
    (hlast : ∀ t ∈ adc.ticksAtLastCall, t < 4294967296) :
    (∀ i, i < adc.numChannelsEnabled →
      (adc.ExecuteCallbacks now env).1.ticksAtLastCall.getD i 0 =
        if Spec.shouldFire now (adc.ticksAtLastCall.getD i 0) (adc.ticksPerCall.getD i 0)
        then now else adc.ticksAtLastCall.getD i 0) ∧
    (adc.ExecuteCallbacks now env).2.trace =
      env.trace ++ (List.range adc.numChannelsEnabled).filterMap (fun i =>
        if Spec.shouldFire now (adc.ticksAtLastCall.getD i 0) (adc.ticksPerCall.getD i 0) then
          (adc.callbackFunctions.getD i none).map (fun f =>
            Event.callback f (adc.callbackParams.getD i 0) (adc.results.getD i 0))
        else none) ∧
    (∀ i, i < adc.numChannelsEnabled → adc.ticksPerCall.getD i 0 = 0 →
      Spec.shouldFire now (adc.ticksAtLastCall.getD i 0) (adc.ticksPerCall.getD i 0) ∧
      (adc.ExecuteCallbacks now env).1.ticksAtLastCall.getD i 0 = now) := by
  have hlen : adc.numChannelsEnabled ≤ adc.ticksAtLastCall.length := by
    have := hs.2.2.2.1
    unfold MaxChannels at this
    omega
  have hl : ∀ j, adc.ticksAtLastCall.getD j 0 < twoPow32 :=
    getD_lt_of_forall_mem _ _ (by unfold twoPow32; omega) hlast
  obtain ⟨-, -, -, -, -, h6, h7⟩ :=
    ExecuteCallbacks_fold now adc env hnow hl adc.numChannelsEnabled hlen
  refine ⟨?_, h7, ?_⟩
  · intro i hi
    unfold AdcClass.ExecuteCallbacks
    rw [h6 i]
    simp only [hi, true_and]
  · intro i hi h0
    have hf : Spec.shouldFire now (adc.ticksAtLastCall.getD i 0) (adc.ticksPerCall.getD i 0) := by
      rw [h0]
      unfold Spec.shouldFire
      omega
    refine ⟨hf, ?_⟩
    unfold AdcClass.ExecuteCallbacks
    rw [h6 i, if_pos ⟨hi, hf⟩]

/-- C3 at a concrete input: the two-slot unit at time 50. -/
theorem C3_ExecuteCallbacks_firing_rule_witness :
    (∀ i, i < twoSlotUnit.1.numChannelsEnabled →
      (twoSlotUnit.1.ExecuteCallbacks 50 twoSlotUnit.2).1.ticksAtLastCall.getD i 0 =
        if Spec.shouldFire 50 (twoSlotUnit.1.ticksAtLastCall.getD i 0)
          (twoSlotUnit.1.ticksPerCall.getD i 0)
        then 50 else twoSlotUnit.1.ticksAtLastCall.getD i 0) ∧
    (twoSlotUnit.1.ExecuteCallbacks 50 twoSlotUnit.2).2.trace =
      twoSlotUnit.2.trace ++ (List.range twoSlotUnit.1.numChannelsEnabled).filterMap (fun i =>
        if Spec.shouldFire 50 (twoSlotUnit.1.ticksAtLastCall.getD i 0)
          (twoSlotUnit.1.ticksPerCall.getD i 0) then
          (twoSlotUnit.1.callbackFunctions.getD i none).map (fun f =>
            Event.callback f (twoSlotUnit.1.callbackParams.getD i 0)
              (twoSlotUnit.1.results.getD i 0))
        else none) ∧
    (∀ i, i < twoSlotUnit.1.numChannelsEnabled → twoSlotUnit.1.ticksPerCall.getD i 0 = 0 →
      Spec.shouldFire 50 (twoSlotUnit.1.ticksAtLastCall.getD i 0)
        (twoSlotUnit.1.ticksPerCall.getD i 0) ∧
      (twoSlotUnit.1.ExecuteCallbacks 50 twoSlotUnit.2).1.ticksAtLastCall.getD i 0 = 50) :=
  C3_ExecuteCallbacks_firing_rule 50 twoSlotUnit.1 twoSlotUnit.2 (by decide) (by decide)
    (by decide) (by decide)

/-! ### Rejected enable calls (C4, C5) -/

/-- C4. When the unit already has 16 channels, or when `chan >= 16` at any
count, `AdcClass::EnableChannel` returns false and the unit (every member)
and the environment are those before the call. -/
theorem C4_EnableChannel_rejected_unchanged (K : HwConsts) (now : Nat) (adc : AdcClass)
    (env : Env) (chan : Nat) (fn : Option Nat) (param ticks : Nat)
    (h : adc.numChannelsEnabled = 16 ∨ chan ≥ 16) :
    adc.EnableChannel K now env chan fn param ticks = (false, adc, env) := by
  unfold AdcClass.EnableChannel MaxChannels
  rw [if_pos h]

/-- C4 at a concrete input: a sixth channel number on the full unit. -/
theorem C4_EnableChannel_rejected_unchanged_witness :
    (fullUnit.1.numChannelsEnabled = 16 ∨ 5 ≥ 16) ∧
      fullUnit.1.EnableChannel same51 77 fullUnit.2 5 (some 4) 8 1000 =
        (false, fullUnit.1, fullUnit.2) :=
  ⟨by decide, C4_EnableChannel_rejected_unchanged same51 77 fullUnit.1 fullUnit.2 5 (some 4) 8
    1000 (by decide)⟩

theorem InternalEnableChannel_fst (K : HwConsts) (now : Nat) (adc : AdcClass) (env : Env)
    (chan refCtrl : Nat) (fn : Option Nat) (param ticks : Nat) :
    (adc.InternalEnableChannel K now env chan refCtrl fn param ticks).1 = true := by
  unfold AdcClass.InternalEnableChannel
  simp only []
  split <;> rfl

theorem EnableChannel_false_unchanged (K : HwConsts) (now : Nat) (adc : AdcClass) (env : Env)
    (chan : Nat) (fn : Option Nat) (param ticks : Nat)
    (h : (adc.EnableChannel K now env chan fn param ticks).1 = false) :
    adc.EnableChannel K now env chan fn param ticks = (false, adc, env) := by
  unfold AdcClass.EnableChannel at h ⊢
  split
  · rfl
  · rename_i hg
    rw [if_neg hg, InternalEnableChannel_fst] at h
    cases h

theorem set_eq_self_of_getElem? {α : Type} (l : List α) (i : Nat) (a : α) (h : l[i]? = some a) :
    l.set i a = l := by
  apply List.ext_getElem?
  intro j
  rw [List.getElem?_set]
  split
  · rename_i hij
    subst hij
    obtain ⟨hlt, -⟩ := List.getElem?_eq_some.mp h
    rw [if_pos hlt, h]
  · rfl

/-- C5 fails as stated: on a system whose first unit is full, enabling pin 3
(ADC input 3 of unit 0) returns false, but `SetPinMode(pin, AIN)` has been
called before the unit refused the channel. -/
theorem C5_counterexample_pin_mode_set_before_refusal :
    ∃ sys, AnalogIn.EnableChannel demoBoard same51 0 fullSystem 3 none 0 0 = some (false, sys) ∧
      sys.Adcs = fullSystem.Adcs ∧
      sys.env.trace = fullSystem.env.trace ++ [Event.setPinModeAIN 3] ∧
      sys.env.trace ≠ fullSystem.env.trace :=
  ⟨{ Adcs := fullSystem.Adcs,
     env := { fullSystem.env with trace := fullSystem.env.trace ++ [Event.setPinModeAIN 3] } },
    by decide, rfl, rfl, by decide⟩

/-- C5 as amended. Whenever `AnalogIn::EnableChannel` returns false, no unit
has changed (the whole `Adcs` table is the one before the call) and the two
scan counters are unchanged. The pin mode is untouched when the pin is
outside the pin table or maps to no ADC input; when the refusal comes from
the unit, the only outside call made is `SetPinMode(pin, AIN)`, made before
the unit was asked. -/
theorem C5_failed_enable_changes_no_unit (B : Board) (K : HwConsts) (now : Nat) (sys sys1 : System)
    (pin : Nat) (fn : Option Nat) (param ticks : Nat)
    (h : AnalogIn.EnableChannel B K now sys pin fn param ticks = some (false, sys1)) :
    sys1.Adcs = sys.Adcs ∧
    sys1.env.conversionsStarted = sys.env.conversionsStarted ∧
    sys1.env.conversionsCompleted = sys.env.conversionsCompleted ∧
    sys1.env.trace =
      (if pin < B.pinTableSize ∧ (B.PinToAdcInput pin).isSome
       then sys.env.trace ++ [Event.setPinModeAIN pin] else sys.env.trace) := by
  unfold AnalogIn.EnableChannel at h
  by_cases hp : pin < B.pinTableSize
  · rw [if_pos hp] at h
    cases hin : B.PinToAdcInput pin with
    | none =>
      rw [hin] at h
      simp only [Option.some.injEq, Prod.mk.injEq, true_and] at h
      subst h
      simp
    | some adcin =>
      rw [hin] at h
      simp only at h
      cases hu : sys.Adcs[B.GetDeviceNumber adcin]? with
      | none => rw [hu] at h; simp at h
      | some adc =>
        rw [hu] at h
        simp only [Option.some.injEq, Prod.mk.injEq] at h
        obtain ⟨hr, hsys⟩ := h
        have hun := EnableChannel_false_unchanged K now adc _ _ fn param ticks hr
        rw [hun] at hsys
        subst hsys
        simp [hp, set_eq_self_of_getElem? _ _ _ hu]
  · rw [if_neg hp] at h
    simp only [Option.some.injEq, Prod.mk.injEq, true_and] at h
    subst h
    simp [hp]

/-- C5 as amended, at a concrete input: pin 3 on the system whose first unit
is full. -/
theorem C5_failed_enable_changes_no_unit_witness :
    ∃ sys, AnalogIn.EnableChannel demoBoard same51 0 fullSystem 3 none 0 0 = some (false, sys) ∧
      sys.Adcs = fullSystem.Adcs ∧
      sys.env.conversionsStarted = fullSystem.env.conversionsStarted ∧
      sys.env.conversionsCompleted = fullSystem.env.conversionsCompleted ∧
      sys.env.trace =
        (if 3 < demoBoard.pinTableSize ∧ (demoBoard.PinToAdcInput 3).isSome
         then fullSystem.env.trace ++ [Event.setPinModeAIN 3] else fullSystem.env.trace) :=
  ⟨{ Adcs := fullSystem.Adcs,
     env := { fullSystem.env with trace := fullSystem.env.trace ++ [Event.setPinModeAIN 3] } },
    by decide,
    C5_failed_enable_changes_no_unit demoBoard same51 0 fullSystem _ 3 none 0 0 (by decide)⟩

/-! ### Starting and completing a scan (C6, C8) -/

/-- C6. `StartConversion` returns false exactly when no channel is enabled
or the unit is converting, and then the unit (including `taskToWake`) and
the environment (including the scans-started counter) are unchanged.
Otherwise it returns true, the state becomes `converting`, the wake handle
is stored, the scans-started counter grows by one modulo `2^32`, and the
slot table, count, bitmap, result buffers and scans-completed counter are
unchanged. -/
theorem C6_StartConversion (adc : AdcClass) (env : Env) (p : Option Nat) :
    ((adc.StartConversion env p).1 = false ↔
      (adc.numChannelsEnabled = 0 ∨ adc.state = State.converting)) ∧
    ((adc.StartConversion env p).1 = false → (adc.StartConversion env p).2 = (adc, env)) ∧
    ((adc.StartConversion env p).1 = true →
      (adc.StartConversion env p).2.1 =
        { adc with taskToWake := p, state := State.converting } ∧
      (adc.StartConversion env p).2.2.conversionsStarted
        = (env.conversionsStarted + 1) % 4294967296 ∧
      (adc.StartConversion env p).2.2.conversionsCompleted = env.conversionsCompleted) := by
  unfold AdcClass.StartConversion twoPow32
  by_cases h : adc.numChannelsEnabled = 0 ∨ adc.state = State.converting
  · simp [h]
  · simp [h]

/-! ### At most one scan in flight (C7) -/

theorem InternalEnableChannel_state_of_pos (K : HwConsts) (now : Nat) (adc : AdcClass) (env : Env)
    (chan refCtrl : Nat) (fn : Option Nat) (param ticks : Nat) (hn : adc.numChannelsEnabled ≠ 0) :
    (adc.InternalEnableChannel K now env chan refCtrl fn param ticks).2.1.state = adc.state ∧
    (adc.InternalEnableChannel K now env chan refCtrl fn param ticks).2.1.numChannelsEnabled
      = adc.numChannelsEnabled + 1 := by
  unfold AdcClass.InternalEnableChannel
  have h1 : ¬ adc.numChannelsEnabled + 1 = 1 := by omega
  simp only [h1, if_false, and_self]

theorem ExecuteCallbacks_body_state (now : Nat) (acc : AdcClass × Env) (i : Nat) :
    (AdcClass.ExecuteCallbacks.body now acc i).1.state = acc.1.state ∧
    (AdcClass.ExecuteCallbacks.body now acc i).1.numChannelsEnabled = acc.1.numChannelsEnabled := by
  unfold AdcClass.ExecuteCallbacks.body
  simp only []
  split
  · split <;> exact ⟨rfl, rfl⟩
  · exact ⟨rfl, rfl⟩

theorem ExecuteCallbacks_state (now : Nat) (adc : AdcClass) (env : Env) :
    (adc.ExecuteCallbacks now env).1.state = adc.state ∧
    (adc.ExecuteCallbacks now env).1.numChannelsEnabled = adc.numChannelsEnabled := by
  unfold AdcClass.ExecuteCallbacks
  generalize List.range adc.numChannelsEnabled = l
  have key : ∀ (l : List Nat) (acc : AdcClass × Env),
      (l.foldl (AdcClass.ExecuteCallbacks.body now) acc).1.state = acc.1.state ∧
      (l.foldl (AdcClass.ExecuteCallbacks.body now) acc).1.numChannelsEnabled
        = acc.1.numChannelsEnabled := by
    intro l
    induction l with
    | nil => intro acc; exact ⟨rfl, rfl⟩
    | cons i l ih =>
      intro acc
      rw [List.foldl_cons]
      obtain ⟨h1, h2⟩ := ih (AdcClass.ExecuteCallbacks.body now acc i)
      obtain ⟨b1, b2⟩ := ExecuteCallbacks_body_state now acc i
      exact ⟨h1.trans b1, h2.trans b2⟩
  exact key l (adc, env)

theorem StartConversion_of_converting (adc : AdcClass) (env : Env) (p : Option Nat)
    (h : adc.state = State.converting) : adc.StartConversion env p = (false, adc, env) := by
  unfold AdcClass.StartConversion
  rw [if_pos (Or.inr h)]

/-- An operation other than the completion interrupt keeps a converting unit
with at least one channel in that condition. -/
theorem apply_keeps_converting (K : HwConsts) (op : Op) (adc : AdcClass) (env : Env)
    (hop : op.isResultReady = false) (hs : adc.state = State.converting)
    (hn : adc.numChannelsEnabled ≠ 0) :
    (op.apply K adc env).2.1.state = State.converting ∧
    (op.apply K adc env).2.1.numChannelsEnabled ≠ 0 := by
  cases op with
  | EnableChannel now chan fn param t =>
    simp only [Op.apply, AdcClass.EnableChannel]
    split
    · exact ⟨hs, hn⟩
    · obtain ⟨h1, h2⟩ := InternalEnableChannel_state_of_pos K now adc env chan
        K.ADC_REFCTRL_REFSEL_INTVCC1 fn param t hn
      rw [h1, h2]
      exact ⟨hs, by omega⟩
  | EnableTemperatureSensor now sn fn param t =>
    simp only [Op.apply, AdcClass.EnableTemperatureSensor]
    split
    · exact ⟨hs, hn⟩
    · obtain ⟨h1, h2⟩ := InternalEnableChannel_state_of_pos K now adc env
        ((sn + K.ADC_INPUTCTRL_MUXPOS_PTAT_Val) % twoPow32)
        K.ADC_REFCTRL_REFSEL_INTVCC1 fn param t hn
      rw [h1, h2]
      exact ⟨hs, by omega⟩
  | StartConversion p =>
    simp only [Op.apply, AdcClass.StartConversion]
    rw [if_pos (Or.inr hs)]
    exact ⟨hs, hn⟩
  | ExecuteCallbacks now =>
    simp only [Op.apply]
    obtain ⟨h1, h2⟩ := ExecuteCallbacks_state now adc env
    rw [h1, h2]
    exact ⟨hs, hn⟩
  | ResultReadyCallback codes => simp [Op.isResultReady] at hop

theorem run_keeps_converting (K : HwConsts) (ops : List Op) (s : AdcClass × Env)
    (hops : ∀ op ∈ ops, op.isResultReady = false) (hs : s.1.state = State.converting)
    (hn : s.1.numChannelsEnabled ≠ 0) :
    (run K ops s).1.state = State.converting ∧ (run K ops s).1.numChannelsEnabled ≠ 0 := by
  induction ops generalizing s with
  | nil => exact ⟨hs, hn⟩
  | cons op ops ih =>
    rw [run]
    obtain ⟨h1, h2⟩ := apply_keeps_converting K op s.1 s.2
      (hops op (List.mem_cons_self _ _)) hs hn
    exact ih _ (fun o ho => hops o (List.mem_cons_of_mem _ ho)) h1 h2

/-- C7. After a `StartConversion` that returned true, and any sequence of
operations on the unit that contains no `ResultReadyCallback` (enable calls
for channels or temperature sensors, `ExecuteCallbacks`, further
`StartConversion` calls), the unit is still converting and a
`StartConversion` returns false and starts nothing: the scans-started
counter and the unit are left as they were. -/
theorem C7_no_second_scan_before_completion (K : HwConsts) (adc : AdcClass) (env : Env)
    (p p2 : Option Nat) (mid : List Op)
    (hstart : (adc.StartConversion env p).1 = true)
    (hmid : ∀ op ∈ mid, op.isResultReady = false) :
    (run K mid (adc.StartConversion env p).2).1.state = State.converting ∧
    (run K mid (adc.StartConversion env p).2).1.StartConversion
        (run K mid (adc.StartConversion env p).2).2 p2 =
      (false, (run K mid (adc.StartConversion env p).2).1,
        (run K mid (adc.StartConversion env p).2).2) := by
  have h0 : (adc.StartConversion env p).2.1.state = State.converting ∧
      (adc.StartConversion env p).2.1.numChannelsEnabled ≠ 0 := by
    unfold AdcClass.StartConversion at hstart ⊢
    by_cases hg : adc.numChannelsEnabled = 0 ∨ adc.state = State.converting
    · rw [if_pos hg] at hstart; cases hstart
    · rw [if_neg hg]
      exact ⟨rfl, fun h => hg (Or.inl h)⟩
  obtain ⟨h1, -⟩ := run_keeps_converting K mid _ hmid h0.1 h0.2
  exact ⟨h1, StartConversion_of_converting _ _ _ h1⟩

/-- C7 at a concrete input: channel 5 is enabled on `Adc0`, a scan is
started, then a second channel and a temperature sensor are enabled and
the callbacks run; the next `StartConversion` is refused. -/
theorem C7_no_second_scan_before_completion_witness :
    (oneSlotUnit.1.StartConversion oneSlotUnit.2 none).1 = true ∧
    (run same51 enableAndDispatch
      (oneSlotUnit.1.StartConversion oneSlotUnit.2 none).2).1.state = State.converting ∧
    (run same51 enableAndDispatch
        (oneSlotUnit.1.StartConversion oneSlotUnit.2 none).2).1.StartConversion
        (run same51 enableAndDispatch
          (oneSlotUnit.1.StartConversion oneSlotUnit.2 none).2).2 (some 2) =
      (false,
        (run same51 enableAndDispatch (oneSlotUnit.1.StartConversion oneSlotUnit.2 none).2).1,
        (run same51 enableAndDispatch (oneSlotUnit.1.StartConversion oneSlotUnit.2 none).2).2) :=
  ⟨by decide,
    C7_no_second_scan_before_completion same51 oneSlotUnit.1 oneSlotUnit.2 none (some 2)
      enableAndDispatch (by decide) (by decide)⟩

/-- C8. From every prior state, with or without a registered wake handle,
`ResultReadyCallback` leaves the unit equal to the prior one except that
`state = ready` (so the slot table, count, bitmap and result buffers are
unchanged), increases the scans-completed counter by one modulo `2^32` and
leaves the scans-started counter unchanged; the outside calls it makes are
the sequencer disable followed by `GiveFromISR` on the wake handle when
there is one. -/
theorem C8_ResultReadyCallback_frame (adc : AdcClass) (env : Env) :
    (adc.ResultReadyCallback env).1 = { adc with state := State.ready } ∧
    (adc.ResultReadyCallback env).2.conversionsCompleted
      = (env.conversionsCompleted + 1) % 4294967296 ∧
    (adc.ResultReadyCallback env).2.conversionsStarted = env.conversionsStarted ∧
    (adc.ResultReadyCallback env).2.trace =
      env.trace ++ [Event.disableSequencer adc.dmaChan] ++
        (adc.taskToWake.map Event.giveFromISR).toList := by
  unfold AdcClass.ResultReadyCallback twoPow32
  cases adc.taskToWake <;> simp

/-! ### Appending slots (C9) -/

/-- The members of the unit after `InternalEnableChannel`. -/
theorem InternalEnableChannel_fields (K : HwConsts) (now : Nat) (adc : AdcClass) (env : Env)
    (chan refCtrl : Nat) (fn : Option Nat) (param ticks : Nat) :
    (adc.InternalEnableChannel K now env chan refCtrl fn param ticks).2.1.numChannelsEnabled
      = adc.numChannelsEnabled + 1 ∧
    (adc.InternalEnableChannel K now env chan refCtrl fn param ticks).2.1.channelsEnabled
      = adc.channelsEnabled ||| bit32 chan ∧
    (adc.InternalEnableChannel K now env chan refCtrl fn param ticks).2.1.callbackFunctions
      = adc.callbackFunctions.set adc.numChannelsEnabled fn ∧
    (adc.InternalEnableChannel K now env chan refCtrl fn param ticks).2.1.callbackParams
      = adc.callbackParams.set adc.numChannelsEnabled param ∧
    (adc.InternalEnableChannel K now env chan refCtrl fn param ticks).2.1.ticksPerCall
      = adc.ticksPerCall.set adc.numChannelsEnabled ticks ∧
    (adc.InternalEnableChannel K now env chan refCtrl fn param ticks).2.1.inputRegisters
      = (adc.inputRegisters.set (adc.numChannelsEnabled * 2)
          (K.ADC_INPUTCTRL_MUXNEG_GND ||| chan)).set
          (adc.numChannelsEnabled * 2 + 1) ((refCtrl % 256) ||| chan) ∧
    (adc.InternalEnableChannel K now env chan refCtrl fn param ticks).2.1.channelNumbers
      = adc.channelNumbers.set adc.numChannelsEnabled (chan % 256) := by
  unfold AdcClass.InternalEnableChannel
  simp only []
  split <;> simp

theorem or_bit_and_bit (x b : Nat) : (x ||| b) &&& b = b := by
  apply Nat.eq_of_testBit_eq
  intro i
  rw [Nat.testBit_and, Nat.testBit_or]
  cases x.testBit i <;> cases b.testBit i <;> rfl

theorem bit32_ne_zero (chan : Nat) (h : chan < 16) : bit32 chan ≠ 0 := by
  unfold bit32 twoPow32
  interval_cases chan <;> decide

/-- C9. On a unit whose arrays have their declared sizes and which has
`n <= 14` enabled slots, two consecutive `AdcClass::EnableChannel` calls for
the same `chan < 16` both return true; the descriptors of the slots
`0, ..., n - 1` (channel number, input register pair, callback, parameter,
interval) are unchanged; the slots `n` and `n + 1` both carry the channel
number `chan` and the register pair for `chan`, with the callback,
parameter and interval of the first and of the second call respectively;
the count is `n + 2`; and `IsChannelEnabled chan` is true. -/
theorem C9_EnableChannel_twice_appends_two_slots (K : HwConsts) (adc : AdcClass) (env : Env)
    (chan now1 now2 : Nat) (fn1 fn2 : Option Nat) (p1 p2 t1 t2 : Nat)
    (r1 r2 : Bool × AdcClass × Env)
    (hs : adc.Sized) (hn : adc.numChannelsEnabled ≤ 14) (hc : chan < 16)
    (h1 : adc.EnableChannel K now1 env chan fn1 p1 t1 = r1)
    (h2 : r1.2.1.EnableChannel K now2 r1.2.2 chan fn2 p2 t2 = r2) :
    r1.1 = true ∧ r2.1 = true ∧
    r2.2.1.numChannelsEnabled = adc.numChannelsEnabled + 2 ∧
    r2.2.1.IsChannelEnabled chan = true ∧
    (∀ i, i < adc.numChannelsEnabled →
      r2.2.1.channelNumbers.getD i 0 = adc.channelNumbers.getD i 0 ∧
      r2.2.1.inputRegisters.getD (i * 2) 0 = adc.inputRegisters.getD (i * 2) 0 ∧
      r2.2.1.inputRegisters.getD (i * 2 + 1) 0 = adc.inputRegisters.getD (i * 2 + 1) 0 ∧
      r2.2.1.callbackFunctions.getD i none = adc.callbackFunctions.getD i none ∧
      r2.2.1.callbackParams.getD i 0 = adc.callbackParams.getD i 0 ∧
      r2.2.1.ticksPerCall.getD i 0 = adc.ticksPerCall.getD i 0) ∧
    (r2.2.1.channelNumbers.getD adc.numChannelsEnabled 0 = chan ∧
      r2.2.1.inputRegisters.getD (adc.numChannelsEnabled * 2) 0
        = K.ADC_INPUTCTRL_MUXNEG_GND ||| chan ∧
      r2.2.1.inputRegisters.getD (adc.numChannelsEnabled * 2 + 1) 0
        = (K.ADC_REFCTRL_REFSEL_INTVCC1 % 256) ||| chan ∧
      r2.2.1.callbackFunctions.getD adc.numChannelsEnabled none = fn1 ∧
      r2.2.1.callbackParams.getD adc.numChannelsEnabled 0 = p1 ∧
      r2.2.1.ticksPerCall.getD adc.numChannelsEnabled 0 = t1) ∧
    (r2.2.1.channelNumbers.getD (adc.numChannelsEnabled + 1) 0 = chan ∧
      r2.2.1.inputRegisters.getD ((adc.numChannelsEnabled + 1) * 2) 0
        = K.ADC_INPUTCTRL_MUXNEG_GND ||| chan ∧
      r2.2.1.inputRegisters.getD ((adc.numChannelsEnabled + 1) * 2 + 1) 0
        = (K.ADC_REFCTRL_REFSEL_INTVCC1 % 256) ||| chan ∧
      r2.2.1.callbackFunctions.getD (adc.numChannelsEnabled + 1) none = fn2 ∧
      r2.2.1.callbackParams.getD (adc.numChannelsEnabled + 1) 0 = p2 ∧
      r2.2.1.ticksPerCall.getD (adc.numChannelsEnabled + 1) 0 = t2) := by
  obtain ⟨s1, s2, s3, -, s5, -, -, s8⟩ := hs
  unfold MaxChannels at s1 s2 s3 s5 s8
  have g1 : ¬ (adc.numChannelsEnabled = MaxChannels ∨ chan ≥ MaxChannels) := by
    unfold MaxChannels; omega
  have e1 : r1 = adc.InternalEnableChannel K now1 env chan K.ADC_REFCTRL_REFSEL_INTVCC1
      fn1 p1 t1 := by
    rw [← h1]; unfold AdcClass.EnableChannel; rw [if_neg g1]
  obtain ⟨a1, a2, a3, a4, a5, a6, a7⟩ := InternalEnableChannel_fields K now1 adc env chan
    K.ADC_REFCTRL_REFSEL_INTVCC1 fn1 p1 t1
  rw [← e1] at a1 a2 a3 a4 a5 a6 a7
  have g2 : ¬ (r1.2.1.numChannelsEnabled = MaxChannels ∨ chan ≥ MaxChannels) := by
    unfold MaxChannels; omega
  have e2 : r2 = r1.2.1.InternalEnableChannel K now2 r1.2.2 chan K.ADC_REFCTRL_REFSEL_INTVCC1
      fn2 p2 t2 := by
    rw [← h2]; unfold AdcClass.EnableChannel; rw [if_neg g2]
  obtain ⟨b1, b2, b3, b4, b5, b6, b7⟩ := InternalEnableChannel_fields K now2 r1.2.1 r1.2.2 chan
    K.ADC_REFCTRL_REFSEL_INTVCC1 fn2 p2 t2
  rw [← e2] at b1 b2 b3 b4 b5 b6 b7
  have hc256 : chan % 256 = chan := Nat.mod_eq_of_lt (by omega)
  rw [a1, a3] at b3
  rw [a1, a4] at b4
  rw [a1, a5] at b5
  rw [a1, a6] at b6
  rw [a1, a7, hc256] at b7
  rw [a1] at b1
  rw [a2] at b2
  refine ⟨?_, ?_, b1, ?_, ?_, ?_, ?_⟩
  · rw [e1]; exact InternalEnableChannel_fst _ _ _ _ _ _ _ _ _
  · rw [e2]; exact InternalEnableChannel_fst _ _ _ _ _ _ _ _ _
  · unfold AdcClass.IsChannelEnabled
    rw [b2, or_bit_and_bit]
    simpa using bit32_ne_zero chan hc
  · intro i hi
    rw [b3, b4, b5, b6, b7]
    simp only [getD_set_nat, List.length_set]
    have n1 : ¬ adc.numChannelsEnabled = i := by omega
    have n2 : ¬ adc.numChannelsEnabled + 1 = i := by omega
    have n3 : ¬ adc.numChannelsEnabled * 2 = i * 2 := by omega
    have n4 : ¬ adc.numChannelsEnabled * 2 + 1 = i * 2 := by omega
    have n5 : ¬ (adc.numChannelsEnabled + 1) * 2 = i * 2 := by omega
    have n6 : ¬ (adc.numChannelsEnabled + 1) * 2 + 1 = i * 2 := by omega
    have n7 : ¬ adc.numChannelsEnabled * 2 = i * 2 + 1 := by omega
    have n8 : ¬ adc.numChannelsEnabled * 2 + 1 = i * 2 + 1 := by omega
    have n9 : ¬ (adc.numChannelsEnabled + 1) * 2 = i * 2 + 1 := by omega
    have n10 : ¬ (adc.numChannelsEnabled + 1) * 2 + 1 = i * 2 + 1 := by omega
    simp only [n1, n2, n3, n4, n5, n6, n7, n8, n9, n10, false_and, if_false, and_self]
  · rw [b3, b4, b5, b6, b7]
    simp only [getD_set_nat, List.length_set]
    have n1 : ¬ adc.numChannelsEnabled + 1 = adc.numChannelsEnabled := by omega
    have n2 : ¬ (adc.numChannelsEnabled + 1) * 2 = adc.numChannelsEnabled * 2 := by omega
    have n3 : ¬ (adc.numChannelsEnabled + 1) * 2 + 1 = adc.numChannelsEnabled * 2 := by omega
    have n4 : ¬ (adc.numChannelsEnabled + 1) * 2 = adc.numChannelsEnabled * 2 + 1 := by omega
    have n5 : ¬ (adc.numChannelsEnabled + 1) * 2 + 1 = adc.numChannelsEnabled * 2 + 1 := by
      omega
    have n6 : ¬ adc.numChannelsEnabled * 2 + 1 = adc.numChannelsEnabled * 2 := by omega
    have l1 : adc.numChannelsEnabled < 16 := by omega
    have l2 : adc.numChannelsEnabled * 2 < 16 * 2 := by omega
    have l3 : adc.numChannelsEnabled * 2 + 1 < 16 * 2 := by omega
    simp only [n1, n2, n3, n4, n5, n6, false_and, if_false, true_and, if_true, s1, s2, s3,
      s5, s8, l1, l2, l3, and_self, and_true]
  · rw [b3, b4, b5, b6, b7]
    simp only [getD_set_nat, List.length_set]
    have l1 : adc.numChannelsEnabled + 1 < 16 := by omega
    have l2 : (adc.numChannelsEnabled + 1) * 2 < 16 * 2 := by omega
    have l3 : (adc.numChannelsEnabled + 1) * 2 + 1 < 16 * 2 := by omega
    have n1 : ¬ (adc.numChannelsEnabled + 1) * 2 + 1 = (adc.numChannelsEnabled + 1) * 2 := by
      omega
    simp only [n1, false_and, if_false, true_and, if_true, s1, s2, s3, s5, s8, l1, l2, l3,
      and_self, and_true]

/-- C9 at a concrete input: channel 7 is enabled twice more on the two-slot
unit. -/
theorem C9_EnableChannel_twice_appends_two_slots_witness :
    ((twoSlotUnit.1.EnableChannel same51 5 twoSlotUnit.2 7 (some 3) 33 10).2.1.EnableChannel
        same51 6 (twoSlotUnit.1.EnableChannel same51 5 twoSlotUnit.2 7 (some 3) 33 10).2.2
        7 none 44 20).2.1.numChannelsEnabled = twoSlotUnit.1.numChannelsEnabled + 2 :=
  (C9_EnableChannel_twice_appends_two_slots same51 twoSlotUnit.1 twoSlotUnit.2 7 5 6
    (some 3) none 33 44 10 20 _ _ (by decide) (by decide) (by decide) rfl rfl).2.2.1

/-! ### First-fit probing for a temperature sensor (C10) -/

theorem EnableTemperatureSensor_refused (K : HwConsts) (now : Nat) (adc : AdcClass) (env : Env)
    (sn : Nat) (fn : Option Nat) (param ticks : Nat)
    (h : adc.numChannelsEnabled = 16 ∨ sn ≥ 2) :
    adc.EnableTemperatureSensor K now env sn fn param ticks = (false, adc, env) := by
  unfold AdcClass.EnableTemperatureSensor MaxChannels
  rw [if_pos h]

theorem EnableTemperatureSensor_accepted (K : HwConsts) (now : Nat) (adc : AdcClass) (env : Env)
    (sn : Nat) (fn : Option Nat) (param ticks : Nat)
    (h1 : adc.numChannelsEnabled ≠ 16) (h2 : sn < 2) :
    (adc.EnableTemperatureSensor K now env sn fn param ticks).1 = true ∧
    (adc.EnableTemperatureSensor K now env sn fn param ticks).2.1.numChannelsEnabled
      = adc.numChannelsEnabled + 1 := by
  have hg : ¬ (adc.numChannelsEnabled = MaxChannels ∨ sn ≥ 2) := by
    unfold MaxChannels; omega
  unfold AdcClass.EnableTemperatureSensor
  rw [if_neg hg]
  exact ⟨InternalEnableChannel_fst _ _ _ _ _ _ _ _ _,
    (InternalEnableChannel_fields _ _ _ _ _ _ _ _ _).1⟩

/-- The probe returns false and changes nothing when every unit from
`adcnum` on refuses the sensor. -/
theorem probe_all_refuse (K : HwConsts) (now sn : Nat) (fn : Option Nat) (param ticks : Nat) :
    ∀ (left adcnum : Nat) (sys : System),
      (sn ≥ 2 ∨ ∀ j u, adcnum ≤ j → sys.Adcs[j]? = some u → u.numChannelsEnabled = 16) →
      AnalogIn.EnableTemperatureSensor.probe K now sn fn param ticks left adcnum sys
        = (false, sys) := by
  intro left
  induction left with
  | zero => intro adcnum sys _; rfl
  | succ left ih =>
    intro adcnum sys h
    unfold AnalogIn.EnableTemperatureSensor.probe
    cases hu : sys.Adcs[adcnum]? with
    | none => rfl
    | some adc =>
      have hg : adc.numChannelsEnabled = 16 ∨ sn ≥ 2 := by
        rcases h with h | h
        · exact Or.inr h
        · exact Or.inl (h adcnum adc (Nat.le_refl _) hu)
      have hsys : ({ Adcs := sys.Adcs.set adcnum adc, env := sys.env } : System) = sys := by
        rw [set_eq_self_of_getElem? _ _ _ hu]
      simp only [EnableTemperatureSensor_refused K now adc sys.env sn fn param ticks hg, hsys]
      apply ih
      rcases h with h | h
      · exact Or.inl h
      · exact Or.inr (fun j u hj => h j u (by omega))

/-- The probe stops at the first unit that accepts the sensor. -/
theorem probe_first_accept (K : HwConsts) (now sn : Nat) (fn : Option Nat) (param ticks : Nat)
    (hsn : sn < 2) :
    ∀ (left adcnum : Nat) (sys : System) (k : Nat) (adc : AdcClass),
      adcnum ≤ k → k < adcnum + left → sys.Adcs[k]? = some adc → adc.numChannelsEnabled ≠ 16 →
      (∀ j u, adcnum ≤ j → j < k → sys.Adcs[j]? = some u → u.numChannelsEnabled = 16) →
      AnalogIn.EnableTemperatureSensor.probe K now sn fn param ticks left adcnum sys
        = (true,
            { Adcs := sys.Adcs.set k
                (adc.EnableTemperatureSensor K now sys.env sn fn param ticks).2.1,
              env := (adc.EnableTemperatureSensor K now sys.env sn fn param ticks).2.2 }) := by
  intro left
  induction left with
  | zero => intro adcnum sys k adc h1 h2; omega
  | succ left ih =>
    intro adcnum sys k adc h1 h2 hk hacc hbefore
    unfold AnalogIn.EnableTemperatureSensor.probe
    by_cases hkeq : adcnum = k
    · subst hkeq
      rw [hk]
      simp only [(EnableTemperatureSensor_accepted K now adc sys.env sn fn param ticks hacc hsn).1,
        if_true]
    · have hlt : adcnum < k := by omega
      obtain ⟨hklen, -⟩ := List.getElem?_eq_some.mp hk
      have hu : sys.Adcs[adcnum]? = some sys.Adcs[adcnum] :=
        List.getElem?_eq_getElem (by omega)
      have hfull := hbefore adcnum _ (Nat.le_refl _) hlt hu
      have hsys : ({ Adcs := sys.Adcs.set adcnum sys.Adcs[adcnum], env := sys.env } : System)
          = sys := by
        rw [set_eq_self_of_getElem? _ _ _ hu]
      rw [hu]
      simp only [EnableTemperatureSensor_refused K now _ sys.env sn fn param ticks
        (Or.inl hfull), hsys]
      exact ih (adcnum + 1) sys k adc (by omega) (by omega) hk hacc
        (fun j u hj hjk => hbefore j u (by omega) hjk)

/-- The probing order of `AnalogIn::EnableTemperatureSensor`, where the
embedding is faithful: in a system whose units hold at most 16 slots each,
and for a sensor whose channel number `sensorNumber + PTAT_Val` is below 16,
so that the store `resultsByChannel[chan] = 0` of the accepting unit stays
inside the array, the function behaves as follows.
With `adcnum = -1` it returns true exactly when `sensorNumber < 2` and some
unit has fewer than 16 slots; when it returns false the system is
unchanged; when it returns true there is a unit index `k` such that unit
`k` has fewer than 16 slots, every unit before `k` is full, the table
`Adcs` afterwards is the old one with unit `k` replaced by the result of
that unit's own `EnableTemperatureSensor` (which returned true and raised
its count by one), and no other unit is changed.
With `0 <= adcnum < ARRAY_SIZE(Adcs)` only unit `adcnum` is asked: the
return value is that unit's and only that entry of `Adcs` is replaced.
For any other `adcnum` it returns false and the system is unchanged. -/
theorem EnableTemperatureSensor_first_fit_of_store_in_range (K : HwConsts) (now : Nat)
    (sys : System) (sn : Nat) (fn : Option Nat) (param ticks : Nat) (adcnum : Int)
    (hcap : ∀ u ∈ sys.Adcs, u.numChannelsEnabled ≤ 16)
    (_hstore : sn < 2 → sn + K.ADC_INPUTCTRL_MUXPOS_PTAT_Val < 16) :
    (adcnum = -1 →
      ((AnalogIn.EnableTemperatureSensor K now sys sn fn param ticks adcnum).1 = true ↔
        (sn < 2 ∧ ∃ u ∈ sys.Adcs, u.numChannelsEnabled < 16)) ∧
      ((AnalogIn.EnableTemperatureSensor K now sys sn fn param ticks adcnum).1 = false →
        (AnalogIn.EnableTemperatureSensor K now sys sn fn param ticks adcnum).2 = sys) ∧
      ((AnalogIn.EnableTemperatureSensor K now sys sn fn param ticks adcnum).1 = true →
        ∃ k adc, sys.Adcs[k]? = some adc ∧ adc.numChannelsEnabled < 16 ∧
          (∀ j u, j < k → sys.Adcs[j]? = some u → u.numChannelsEnabled = 16) ∧
          (adc.EnableTemperatureSensor K now sys.env sn fn param ticks).1 = true ∧
          (adc.EnableTemperatureSensor K now sys.env sn fn param ticks).2.1.numChannelsEnabled
            = adc.numChannelsEnabled + 1 ∧
          (AnalogIn.EnableTemperatureSensor K now sys sn fn param ticks adcnum).2 =
            { Adcs := sys.Adcs.set k
                (adc.EnableTemperatureSensor K now sys.env sn fn param ticks).2.1,
              env := (adc.EnableTemperatureSensor K now sys.env sn fn param ticks).2.2 })) ∧
    (0 ≤ adcnum → adcnum < (sys.Adcs.length : Int) →
      ∃ adc, sys.Adcs[adcnum.toNat]? = some adc ∧
        AnalogIn.EnableTemperatureSensor K now sys sn fn param ticks adcnum =
          ((adc.EnableTemperatureSensor K now sys.env sn fn param ticks).1,
            { Adcs := sys.Adcs.set adcnum.toNat
                (adc.EnableTemperatureSensor K now sys.env sn fn param ticks).2.1,
              env := (adc.EnableTemperatureSensor K now sys.env sn fn param ticks).2.2 })) ∧
    (adcnum < -1 ∨ (sys.Adcs.length : Int) ≤ adcnum →
      AnalogIn.EnableTemperatureSensor K now sys sn fn param ticks adcnum = (false, sys)) := by
  refine ⟨?_, ?_, ?_⟩
  · intro hm
    subst hm
    have hdef : AnalogIn.EnableTemperatureSensor K now sys sn fn param ticks (-1) =
        AnalogIn.EnableTemperatureSensor.probe K now sn fn param ticks sys.Adcs.length 0 sys := by
      unfold AnalogIn.EnableTemperatureSensor
      rw [if_pos rfl]
    rw [hdef]
    by_cases hacc : sn < 2 ∧ ∃ u ∈ sys.Adcs, u.numChannelsEnabled < 16
    · obtain ⟨hsn, u, hu, hlt⟩ := hacc
      classical
      have hex : ∃ j : Nat, ∃ v : AdcClass, sys.Adcs[j]? = some v ∧ v.numChannelsEnabled ≠ 16 := by
        obtain ⟨j, hj⟩ := List.mem_iff_getElem?.mp hu
        exact ⟨j, u, hj, by omega⟩
      obtain ⟨adc, hk, hne⟩ := Nat.find_spec hex
      have hmin : ∀ (j : Nat) (v : AdcClass), j < Nat.find hex → sys.Adcs[j]? = some v →
          v.numChannelsEnabled = 16 := by
        intro j v hj hv
        by_contra hc
        exact Nat.find_min hex hj ⟨v, hv, hc⟩
      obtain ⟨hklen, -⟩ := List.getElem?_eq_some.mp hk
      have hprobe := probe_first_accept K now sn fn param ticks hsn sys.Adcs.length 0 sys
        (Nat.find hex) adc (Nat.zero_le _) (by omega) hk hne
        (fun j v _ hj hv => hmin j v hj hv)
      have hadc := EnableTemperatureSensor_accepted K now adc sys.env sn fn param ticks hne hsn
      have hle := hcap adc (List.getElem?_mem hk)
      rw [hprobe]
      refine ⟨⟨fun _ => ⟨hsn, u, hu, hlt⟩, fun _ => rfl⟩, fun h => (by cases h), fun _ => ?_⟩
      exact ⟨Nat.find hex, adc, hk, by omega, hmin, hadc.1, hadc.2, rfl⟩
    · have hprobe := probe_all_refuse K now sn fn param ticks sys.Adcs.length 0 sys (by
        by_cases hsn : sn < 2
        · right
          intro j v _ hv
          have hle := hcap v (List.getElem?_mem hv)
          by_contra hc
          exact hacc ⟨hsn, v, List.getElem?_mem hv, by omega⟩
        · left; omega)
      rw [hprobe]
      refine ⟨⟨fun h => (by cases h), fun h => absurd h hacc⟩, fun _ => rfl, fun h => (by cases h)⟩
  · intro h0 hlt
    have hne : adcnum ≠ -1 := by omega
    have hidx : adcnum.toNat < sys.Adcs.length := by omega
    refine ⟨sys.Adcs[adcnum.toNat], List.getElem?_eq_getElem hidx, ?_⟩
    unfold AnalogIn.EnableTemperatureSensor
    rw [if_neg hne, if_pos ⟨h0, hlt⟩, List.getElem?_eq_getElem hidx]
  · intro h
    have hne : adcnum ≠ -1 := by omega
    have hrange : ¬ (0 ≤ adcnum ∧ adcnum < (sys.Adcs.length : Int)) := by omega
    unfold AnalogIn.EnableTemperatureSensor
    rw [if_neg hne, if_neg hrange]

theorem ExecuteCallbacks_body_unit_indep (now : Nat) (a : AdcClass) (e e1 : Env) (i : Nat) :
    (AdcClass.ExecuteCallbacks.body now (a, e) i).1
      = (AdcClass.ExecuteCallbacks.body now (a, e1) i).1 := by
  unfold AdcClass.ExecuteCallbacks.body
  simp only []
  split
  · split <;> rfl
  · rfl

theorem ExecuteCallbacks_unit_indep (now : Nat) (adc : AdcClass) (e e1 : Env) :
    (adc.ExecuteCallbacks now e).1 = (adc.ExecuteCallbacks now e1).1 := by
  unfold AdcClass.ExecuteCallbacks
  generalize List.range adc.numChannelsEnabled = l
  have key : ∀ (l : List Nat) (a : AdcClass) (e e1 : Env),
      (l.foldl (AdcClass.ExecuteCallbacks.body now) (a, e)).1
        = (l.foldl (AdcClass.ExecuteCallbacks.body now) (a, e1)).1 := by
    intro l
    induction l with
    | nil => intro a e e1; rfl
    | cons i l ih =>
      intro a e e1
      rw [List.foldl_cons, List.foldl_cons]
      have hb := ExecuteCallbacks_body_unit_indep now a e e1 i
      generalize AdcClass.ExecuteCallbacks.body now (a, e) i = x at hb ⊢
      generalize AdcClass.ExecuteCallbacks.body now (a, e1) i = y at hb ⊢
      obtain ⟨xa, xe⟩ := x
      obtain ⟨ya, ye⟩ := y
      simp only at hb
      subst hb
      exact ih xa xe ye
  exact key l adc e e1

theorem StartConversion_unit_indep (adc : AdcClass) (e e1 : Env) (p : Option Nat) :
    (adc.StartConversion e p).2.1 = (adc.StartConversion e1 p).2.1 := by
  unfold AdcClass.StartConversion
  split <;> rfl

/-- The unit a visit leaves behind does not depend on the environment. -/
theorem visit_unit_indep (now task : Nat) (adc : AdcClass) (e e1 : Env) :
    (AnalogIn.AinLoop.visit now task adc e).2.1 = (AnalogIn.AinLoop.visit now task adc e1).2.1 := by
  unfold AnalogIn.AinLoop.visit AdcClass.GetState
  cases adc.state with
  | ready =>
    simp only []
    rw [ExecuteCallbacks_unit_indep now adc e e1]
    exact StartConversion_unit_indep _ _ _ _
  | idle => exact StartConversion_unit_indep _ _ _ _
  | starting => exact StartConversion_unit_indep _ _ _ _
  | converting => rfl
  | noChannels => rfl

theorem visit_flag (now task : Nat) (adc : AdcClass) (e : Env) :
    (AnalogIn.AinLoop.visit now task adc e).1 = true ↔
      (adc.state = State.ready ∨ adc.state = State.idle ∨ adc.state = State.starting) := by
  unfold AnalogIn.AinLoop.visit AdcClass.GetState
  cases adc.state <;> simp

/-- The inner loop of `AinLoop` after the units `0, ..., k - 1`. -/
theorem sweep_fold (clock : Nat → Nat) (task : Nat) (sys : System) (k : Nat)
    (hk : k ≤ sys.Adcs.length) :
    ((List.range k).foldl (AnalogIn.AinLoop.body clock task) (false, sys)).2.Adcs.length
      = sys.Adcs.length ∧
    (∀ (i : Nat) (adc : AdcClass) (e : Env), i < k → sys.Adcs[i]? = some adc →
      ((List.range k).foldl (AnalogIn.AinLoop.body clock task) (false, sys)).2.Adcs[i]?
        = some (AnalogIn.AinLoop.visit (clock i) task adc e).2.1) ∧
    (∀ i : Nat, k ≤ i →
      ((List.range k).foldl (AnalogIn.AinLoop.body clock task) (false, sys)).2.Adcs[i]?
        = sys.Adcs[i]?) ∧
    (((List.range k).foldl (AnalogIn.AinLoop.body clock task) (false, sys)).1 = true ↔
      ∃ (i : Nat) (adc : AdcClass), i < k ∧ sys.Adcs[i]? = some adc ∧
        (adc.state = State.ready ∨ adc.state = State.idle ∨ adc.state = State.starting)) := by
  induction k with
  | zero => simp
  | succ k ih =>
    obtain ⟨h1, h2, h3, h4⟩ := ih (by omega)
    rw [List.range_succ, List.foldl_append]
    generalize (List.range k).foldl (AnalogIn.AinLoop.body clock task) (false, sys) = acc at *
    obtain ⟨flag, s⟩ := acc
    simp only at h1 h2 h3 h4
    have hlt : k < sys.Adcs.length := by omega
    have hsk : s.Adcs[k]? = some sys.Adcs[k] := by
      rw [h3 k (Nat.le_refl _)]; exact List.getElem?_eq_getElem hlt
    simp only [List.foldl_cons, List.foldl_nil, AnalogIn.AinLoop.body, hsk]
    refine ⟨by simp [h1], ?_, ?_, ?_⟩
    · intro i adc e hi hadc
      rw [List.getElem?_set]
      by_cases hik : k = i
      · subst hik
        have hadc2 : sys.Adcs[k] = adc := by
          rw [List.getElem?_eq_getElem hlt] at hadc
          exact Option.some.inj hadc
        rw [if_pos rfl, if_pos (by omega), hadc2, visit_unit_indep (clock k) task adc s.env e]
      · rw [if_neg hik]
        exact h2 i adc e (by omega) hadc
    · intro i hi
      rw [List.getElem?_set, if_neg (by omega)]
      exact h3 i (by omega)
    · rw [Bool.or_eq_true, h4, visit_flag]
      constructor
      · rintro (⟨i, adc, hi, hadc, hst⟩ | hst)
        · exact ⟨i, adc, by omega, hadc, hst⟩
        · exact ⟨k, sys.Adcs[k], by omega, List.getElem?_eq_getElem hlt, hst⟩
      · rintro ⟨i, adc, hi, hadc, hst⟩
        by_cases hik : i = k
        · subst hik
          right
          rw [List.getElem?_eq_getElem hlt] at hadc
          rw [Option.some.inj hadc]
          exact hst
        · exact Or.inl ⟨i, adc, by omega, hadc, hst⟩

theorem sweep_unchanged_of_none_startable (clock : Nat → Nat) (task : Nat) (sys : System)
    (h : ∀ adc ∈ sys.Adcs, adc.state = State.converting ∨ adc.state = State.noChannels) :
    ∀ k, (List.range k).foldl (AnalogIn.AinLoop.body clock task) (false, sys) = (false, sys) := by
  intro k
  induction k with
  | zero => rfl
  | succ k ih =>
    rw [List.range_succ, List.foldl_append, ih]
    simp only [List.foldl_cons, List.foldl_nil, AnalogIn.AinLoop.body]
    cases hu : sys.Adcs[k]? with
    | none => rfl
    | some adc =>
      have hst := h adc (List.getElem?_mem hu)
      have hv : AnalogIn.AinLoop.visit (clock k) task adc sys.env = (false, adc, sys.env) := by
        unfold AnalogIn.AinLoop.visit AdcClass.GetState
        rcases hst with hst | hst <;> rw [hst]
      simp only [hv, Bool.or_false, set_eq_self_of_getElem? _ _ _ hu]

/-- One loop iteration of `ExecuteCallbacks` appends to the trace a list of
events that does not depend on the environment, and changes nothing else in
the environment. -/
theorem ExecuteCallbacks_body_env (now : Nat) (a : AdcClass) (i : Nat) :
    ∃ d : List Event, ∀ e : Env,
      AdcClass.ExecuteCallbacks.body now (a, e) i =
        ((AdcClass.ExecuteCallbacks.body now (a, Env.start) i).1,
          { e with trace := e.trace ++ d }) := by
  unfold AdcClass.ExecuteCallbacks.body
  simp only []
  split
  · split
    · exact ⟨_, fun e => rfl⟩
    · exact ⟨[], fun e => by simp⟩
  · exact ⟨[], fun e => by simp⟩

theorem ExecuteCallbacks_fold_env (now : Nat) (l : List Nat) :
    ∀ a : AdcClass, ∃ d : List Event, ∀ e : Env,
      l.foldl (AdcClass.ExecuteCallbacks.body now) (a, e) =
        ((l.foldl (AdcClass.ExecuteCallbacks.body now) (a, Env.start)).1,
          { e with trace := e.trace ++ d }) := by
  induction l with
  | nil => intro a; exact ⟨[], fun e => by simp⟩
  | cons i l ih =>
    intro a
    obtain ⟨d0, h0⟩ := ExecuteCallbacks_body_env now a i
    obtain ⟨d1, h1⟩ := ih (AdcClass.ExecuteCallbacks.body now (a, Env.start) i).1
    refine ⟨d0 ++ d1, fun e => ?_⟩
    rw [List.foldl_cons, List.foldl_cons, h0 e, h0 Env.start, h1,
      h1 { Env.start with trace := Env.start.trace ++ d0 }]
    simp

/-- The environment after `ExecuteCallbacks`: the counters are unchanged and
the trace grows by the events the pass emits from an empty trace. -/
theorem ExecuteCallbacks_env (now : Nat) (adc : AdcClass) (e : Env) :
    (adc.ExecuteCallbacks now e).2 =
      { e with trace := e.trace ++ (adc.ExecuteCallbacks now Env.start).2.trace } := by
  unfold AdcClass.ExecuteCallbacks
  obtain ⟨d, hd⟩ := ExecuteCallbacks_fold_env now (List.range adc.numChannelsEnabled) adc
  rw [hd e, hd Env.start]
  simp [Env.start]

/-- The environment after `StartConversion` on a unit that is not converting. -/
theorem StartConversion_env (adc : AdcClass) (e : Env) (p : Option Nat)
    (hs : adc.state ≠ State.converting) :
    (adc.StartConversion e p).2.2 =
      { conversionsStarted :=
          if adc.numChannelsEnabled ≠ 0 then (e.conversionsStarted + 1) % 4294967296
          else e.conversionsStarted
        conversionsCompleted := e.conversionsCompleted
        trace := e.trace ++ (adc.StartConversion Env.start p).2.2.trace } := by
  unfold AdcClass.StartConversion twoPow32
  by_cases h0 : adc.numChannelsEnabled = 0
  · simp [h0, Env.start]
  · simp [h0, hs, Env.start]

/-- The environment after the visit of one unit: the scans-started counter is
bumped exactly when the unit was in `ready`, `idle` or `starting` with at
least one channel, the scans-completed counter is unchanged, and the trace
grows by the events the visit emits from an empty trace. -/
theorem visit_env (now task : Nat) (adc : AdcClass) (e : Env) :
    (AnalogIn.AinLoop.visit now task adc e).2.2 =
      { conversionsStarted :=
          if (adc.state = State.ready ∨ adc.state = State.idle ∨ adc.state = State.starting) ∧
              adc.numChannelsEnabled ≠ 0
          then (e.conversionsStarted + 1) % 4294967296 else e.conversionsStarted
        conversionsCompleted := e.conversionsCompleted
        trace := e.trace ++ (AnalogIn.AinLoop.visit now task adc Env.start).2.2.trace } := by
  unfold AnalogIn.AinLoop.visit AdcClass.GetState
  cases hst : adc.state with
  | ready =>
    simp only []
    obtain ⟨h1, h2⟩ := ExecuteCallbacks_state now adc e
    obtain ⟨h3, h4⟩ := ExecuteCallbacks_state now adc Env.start
    have hu := ExecuteCallbacks_unit_indep now adc e Env.start
    rw [StartConversion_env _ _ _ (by rw [h1, hst]; decide),
      StartConversion_env _ (adc.ExecuteCallbacks now Env.start).2 _ (by rw [h3, hst]; decide),
      h2, ExecuteCallbacks_env now adc e, hu]
    simp [Env.start]
  | idle =>
    simp only []
    rw [StartConversion_env _ _ _ (by rw [hst]; decide)]
    simp
  | starting =>
    simp only []
    rw [StartConversion_env _ _ _ (by rw [hst]; decide)]
    simp
  | converting => simp [Env.start]
  | noChannels => simp [Env.start]

/-- The environment during the inner loop of `AinLoop`, after the units
`0, ..., k - 1`. -/
theorem sweep_fold_env (clock : Nat → Nat) (task : Nat) (sys : System) (k : Nat)
    (hk : k ≤ sys.Adcs.length) :
    ((List.range k).foldl (AnalogIn.AinLoop.body clock task) (false, sys)).2.env.trace =
      sys.env.trace ++ (List.range k).flatMap (fun i =>
        ((sys.Adcs[i]?).map (fun adc =>
          (AnalogIn.AinLoop.visit (clock i) task adc Env.start).2.2.trace)).getD []) ∧
    ((List.range k).foldl (AnalogIn.AinLoop.body clock task)
        (false, sys)).2.env.conversionsStarted =
      (fun x => (x + 1) % 4294967296)^[(sys.Adcs.take k).countP (fun adc =>
        decide ((adc.state = State.ready ∨ adc.state = State.idle ∨
          adc.state = State.starting) ∧ adc.numChannelsEnabled ≠ 0))]
        sys.env.conversionsStarted ∧
    ((List.range k).foldl (AnalogIn.AinLoop.body clock task)
        (false, sys)).2.env.conversionsCompleted = sys.env.conversionsCompleted := by
  induction k with
  | zero => simp
  | succ k ih =>
    obtain ⟨e1, e2, e3⟩ := ih (by omega)
    obtain ⟨-, -, h3, -⟩ := sweep_fold clock task sys k (by omega)
    rw [List.range_succ, List.foldl_append, List.flatMap_append, List.take_succ,
      List.countP_append]
    generalize (List.range k).foldl (AnalogIn.AinLoop.body clock task) (false, sys) = acc at *
    obtain ⟨flag, s⟩ := acc
    simp only at e1 e2 e3 h3
    have hlt : k < sys.Adcs.length := by omega
    have hk1 : sys.Adcs[k]? = some sys.Adcs[k] := List.getElem?_eq_getElem hlt
    have hsk : s.Adcs[k]? = some sys.Adcs[k] := by
      rw [h3 k (Nat.le_refl _)]; exact hk1
    simp only [List.foldl_cons, List.foldl_nil, AnalogIn.AinLoop.body, hsk, hk1,
      Option.toList, List.flatMap_cons, List.flatMap_nil, Option.map_some', Option.getD_some,
      List.append_nil, List.countP_singleton]
    rw [visit_env (clock k) task sys.Adcs[k] s.env]
    simp only []
    refine ⟨by rw [e1, List.append_assoc], ?_, e3⟩
    rw [e2]
    by_cases hp : (sys.Adcs[k].state = State.ready ∨ sys.Adcs[k].state = State.idle ∨
        sys.Adcs[k].state = State.starting) ∧ sys.Adcs[k].numChannelsEnabled ≠ 0
    · rw [if_pos hp, if_pos (decide_eq_true hp), Function.iterate_succ_apply']
    · rw [if_neg hp, if_neg (by rw [decide_eq_true_eq]; exact hp), Nat.add_zero]

/-- C11. The `switch` applied to one unit: in state `ready` the result is that
of `ExecuteCallbacks` followed by `StartConversion`; in `idle` or `starting`
that of `StartConversion` alone; in `converting` or `noChannels` the unit
and the environment are returned unchanged and `conversionStarted` is not
set.  One sweep leaves the table `Adcs` with its length and with every
entry `i` equal to what the `switch` alone makes of the entry's state before
the sweep (whatever the environment and the other units are), so a unit
in `converting` or `noChannels` is unchanged; a sweep over units that are all
in `converting` or `noChannels` changes nothing at all.  The environment after
a sweep is pinned too: the trace is the old trace followed, unit by unit in
index order, by the outside calls of that unit's visit (callbacks invoked,
DMA re-armed); the scans-started counter has been incremented modulo `2^32`
once for every unit that was in `ready`, `idle` or `starting` with at least
one channel; the scans-completed counter is unchanged.  The iteration takes
the blocking wait (`Take(500)`, `delay(2)`) exactly when some unit was in
`ready`, `idle` or `starting`, and the idle back-off `delay(10)` otherwise. -/
theorem C11_scheduler_sweep (clock : Nat → Nat) (task : Nat) (sys : System) :
    (∀ (now : Nat) (adc : AdcClass) (env : Env),
      (adc.state = State.ready →
        AnalogIn.AinLoop.visit now task adc env =
          (true, ((adc.ExecuteCallbacks now env).1.StartConversion
            (adc.ExecuteCallbacks now env).2 (some task)).2)) ∧
      (adc.state = State.idle ∨ adc.state = State.starting →
        AnalogIn.AinLoop.visit now task adc env =
          (true, (adc.StartConversion env (some task)).2)) ∧
      (adc.state = State.converting ∨ adc.state = State.noChannels →
        AnalogIn.AinLoop.visit now task adc env = (false, adc, env))) ∧
    (AnalogIn.AinLoop.sweep clock task sys).2.Adcs.length = sys.Adcs.length ∧
    (∀ (i : Nat) (adc : AdcClass) (env : Env), sys.Adcs[i]? = some adc →
      (AnalogIn.AinLoop.sweep clock task sys).2.Adcs[i]?
        = some (AnalogIn.AinLoop.visit (clock i) task adc env).2.1) ∧
    (∀ (i : Nat) (adc : AdcClass), sys.Adcs[i]? = some adc →
      (adc.state = State.converting ∨ adc.state = State.noChannels) →
      (AnalogIn.AinLoop.sweep clock task sys).2.Adcs[i]? = some adc) ∧
    ((∀ adc ∈ sys.Adcs, adc.state = State.converting ∨ adc.state = State.noChannels) →
      AnalogIn.AinLoop.sweep clock task sys = (false, sys)) ∧
    (AnalogIn.AinLoop.sweep clock task sys).2.env.trace =
      sys.env.trace ++ (List.range sys.Adcs.length).flatMap (fun i =>
        ((sys.Adcs[i]?).map (fun adc =>
          (AnalogIn.AinLoop.visit (clock i) task adc Env.start).2.2.trace)).getD []) ∧
    (AnalogIn.AinLoop.sweep clock task sys).2.env.conversionsStarted =
      (fun x => (x + 1) % 4294967296)^[sys.Adcs.countP (fun adc =>
        decide ((adc.state = State.ready ∨ adc.state = State.idle ∨
          adc.state = State.starting) ∧ adc.numChannelsEnabled ≠ 0))]
        sys.env.conversionsStarted ∧
    (AnalogIn.AinLoop.sweep clock task sys).2.env.conversionsCompleted
      = sys.env.conversionsCompleted ∧
    ((AnalogIn.AinLoop.iteration clock task sys).1 = Wait.blocking 500 2 ↔
      ∃ adc ∈ sys.Adcs,
        adc.state = State.ready ∨ adc.state = State.idle ∨ adc.state = State.starting) ∧
    ((AnalogIn.AinLoop.iteration clock task sys).1 = Wait.backoff 10 ↔
      ¬ ∃ adc ∈ sys.Adcs,
        adc.state = State.ready ∨ adc.state = State.idle ∨ adc.state = State.starting) ∧
    (AnalogIn.AinLoop.iteration clock task sys).2 = (AnalogIn.AinLoop.sweep clock task sys).2 := by
  obtain ⟨h1, h2, -, h4⟩ := sweep_fold clock task sys sys.Adcs.length (Nat.le_refl _)
  obtain ⟨e1, e2, e3⟩ := sweep_fold_env clock task sys sys.Adcs.length (Nat.le_refl _)
  rw [List.take_length] at e2
  have hvisit : ∀ (now : Nat) (adc : AdcClass) (env : Env),
      (adc.state = State.converting ∨ adc.state = State.noChannels) →
      AnalogIn.AinLoop.visit now task adc env = (false, adc, env) := by
    intro now adc env hst
    unfold AnalogIn.AinLoop.visit AdcClass.GetState
    rcases hst with hst | hst <;> rw [hst]
  have hflag : (AnalogIn.AinLoop.sweep clock task sys).1 = true ↔
      ∃ adc ∈ sys.Adcs,
        adc.state = State.ready ∨ adc.state = State.idle ∨ adc.state = State.starting := by
    unfold AnalogIn.AinLoop.sweep
    rw [h4]
    constructor
    · rintro ⟨i, adc, -, hadc, hst⟩
      exact ⟨adc, List.getElem?_mem hadc, hst⟩
    · rintro ⟨adc, hmem, hst⟩
      obtain ⟨i, hi⟩ := List.mem_iff_getElem?.mp hmem
      obtain ⟨hlt, -⟩ := List.getElem?_eq_some.mp hi
      exact ⟨i, adc, hlt, hi, hst⟩
  have hidx : ∀ (i : Nat) (adc : AdcClass) (env : Env), sys.Adcs[i]? = some adc →
      (AnalogIn.AinLoop.sweep clock task sys).2.Adcs[i]?
        = some (AnalogIn.AinLoop.visit (clock i) task adc env).2.1 := by
    intro i adc env hadc
    obtain ⟨hlt, -⟩ := List.getElem?_eq_some.mp hadc
    exact h2 i adc env hlt hadc
  refine ⟨?_, h1, hidx, ?_, ?_, e1, e2, e3, ?_, ?_, ?_⟩
  · intro now adc env
    refine ⟨?_, ?_, hvisit now adc env⟩
    · intro hst
      unfold AnalogIn.AinLoop.visit AdcClass.GetState
      rw [hst]
    · intro hst
      unfold AnalogIn.AinLoop.visit AdcClass.GetState
      rcases hst with hst | hst <;> rw [hst]
  · intro i adc hadc hst
    rw [hidx i adc sys.env hadc, hvisit (clock i) adc sys.env hst]
  · intro hall
    exact sweep_unchanged_of_none_startable clock task sys hall _
  · rw [← hflag]
    unfold AnalogIn.AinLoop.iteration
    by_cases hb : (AnalogIn.AinLoop.sweep clock task sys).1 = true
    · simp [hb]
    · simp [hb]
  · rw [← hflag]
    unfold AnalogIn.AinLoop.iteration
    by_cases hb : (AnalogIn.AinLoop.sweep clock task sys).1 = true
    · simp [hb]
    · simp [hb]
  · unfold AnalogIn.AinLoop.iteration
    by_cases hb : (AnalogIn.AinLoop.sweep clock task sys).1 = true
    · simp [hb]
    · simp [hb]

/-! ### The channel count and the slot indices (C12) -/

theorem dmaDrain_fields (adc : AdcClass) (codes : List Nat) :
    (adc.dmaDrain codes).numChannelsEnabled = adc.numChannelsEnabled ∧
    (adc.dmaDrain codes).state = adc.state := ⟨rfl, rfl⟩

theorem ResultReadyCallback_fields (adc : AdcClass) (env : Env) :
    (adc.ResultReadyCallback env).1.numChannelsEnabled = adc.numChannelsEnabled ∧
    (adc.ResultReadyCallback env).1.state = State.ready := by
  unfold AdcClass.ResultReadyCallback
  cases adc.taskToWake <;> exact ⟨rfl, rfl⟩

theorem StartConversion_count (adc : AdcClass) (env : Env) (p : Option Nat) :
    (adc.StartConversion env p).2.1.numChannelsEnabled = adc.numChannelsEnabled := by
  unfold AdcClass.StartConversion
  split <;> rfl

/-- No operation raises the count above 16. -/
theorem apply_count_le (K : HwConsts) (op : Op) (adc : AdcClass) (env : Env)
    (hn : adc.numChannelsEnabled ≤ 16) :
    (op.apply K adc env).2.1.numChannelsEnabled ≤ 16 := by
  cases op with
  | EnableChannel now chan fn param t =>
    simp only [Op.apply, AdcClass.EnableChannel, MaxChannels]
    split
    · exact hn
    · rename_i hg
      rw [(InternalEnableChannel_fields K now adc env chan _ fn param t).1]
      omega
  | EnableTemperatureSensor now sn fn param t =>
    simp only [Op.apply, AdcClass.EnableTemperatureSensor, MaxChannels]
    split
    · exact hn
    · rename_i hg
      rw [(InternalEnableChannel_fields K now adc env _ _ fn param t).1]
      omega
  | StartConversion p =>
    simp only [Op.apply]
    rw [StartConversion_count]
    exact hn
  | ExecuteCallbacks now =>
    simp only [Op.apply]
    rw [(ExecuteCallbacks_state now adc env).2]
    exact hn
  | ResultReadyCallback codes =>
    simp only [Op.apply]
    rw [(ResultReadyCallback_fields _ env).1, (dmaDrain_fields adc codes).1]
    exact hn

/-- The slot-indexed stores of `InternalEnableChannel` are inside their
arrays when the count is below 16. -/
theorem InternalEnableChannel_stores_bounded (adc : AdcClass) (chan : Nat)
    (hn : adc.numChannelsEnabled < 16) :
    ∀ st ∈ AdcClass.InternalEnableChannel.stores adc chan,
      (st.1 = Table.inputRegisters → st.2 < 32) ∧
      (st.1 ≠ Table.inputRegisters → st.1 ≠ Table.resultsByChannel → st.2 < 16) := by
  intro st hst
  unfold AdcClass.InternalEnableChannel.stores at hst
  simp only [List.mem_cons, List.mem_singleton, List.not_mem_nil, or_false] at hst
  rcases hst with h | h | h | h | h | h | h | h <;> subst h <;> simp <;> omega

theorem enableStores_bounded (K : HwConsts) (op : Op) (adc : AdcClass)
    (hn : adc.numChannelsEnabled ≤ 16) :
    ∀ st ∈ op.enableStores K adc,
      (st.1 = Table.inputRegisters → st.2 < 32) ∧
      (st.1 ≠ Table.inputRegisters → st.1 ≠ Table.resultsByChannel → st.2 < 16) := by
  cases op with
  | EnableChannel now chan fn param t =>
    simp only [Op.enableStores, AdcClass.EnableChannel.stores, MaxChannels]
    split
    · intro st hst; cases hst
    · rename_i hg
      exact InternalEnableChannel_stores_bounded adc chan (by omega)
  | EnableTemperatureSensor now sn fn param t =>
    simp only [Op.enableStores, AdcClass.EnableTemperatureSensor.stores, MaxChannels]
    split
    · intro st hst; cases hst
    · rename_i hg
      exact InternalEnableChannel_stores_bounded adc _ (by omega)
  | StartConversion p => intro st hst; cases hst
  | ExecuteCallbacks now => intro st hst; cases hst
  | ResultReadyCallback codes => intro st hst; cases hst

theorem run_count_le (K : HwConsts) (ops : List Op) (s : AdcClass × Env)
    (hn : s.1.numChannelsEnabled ≤ 16) :
    (run K ops s).1.numChannelsEnabled ≤ 16 ∧
    ∀ st ∈ runEnableStores K ops s,
      (st.1 = Table.inputRegisters → st.2 < 32) ∧
      (st.1 ≠ Table.inputRegisters → st.1 ≠ Table.resultsByChannel → st.2 < 16) := by
  induction ops generalizing s with
  | nil => exact ⟨hn, fun st hst => by cases hst⟩
  | cons op ops ih =>
    rw [run, runEnableStores]
    obtain ⟨h1, h2⟩ := ih (op.apply K s.1 s.2).2 (apply_count_le K op s.1 s.2 hn)
    refine ⟨h1, ?_⟩
    intro st hst
    rcases List.mem_append.mp hst with h | h
    · exact enableStores_bounded K op s.1 hn st h
    · exact h2 st h

/-- C12. Starting from a freshly constructed unit, after every finite sequence
of `EnableChannel`, `EnableTemperatureSensor`, `StartConversion`,
`ExecuteCallbacks` and `ResultReadyCallback` calls with arbitrary arguments
the count is at most 16, and every store an enable call of the sequence
makes to a slot-indexed array is at an index below 16 (below 32 for
`inputRegisters`).  The store to `resultsByChannel`, which is indexed by
the channel number, is not covered. -/
theorem C12_count_never_exceeds_capacity (K : HwConsts)
    (p_device p_irqn p_dmaChan p_trigSrc : Nat) (env : Env) (ops : List Op) :
    (run K ops (AdcClass.new p_device p_irqn p_dmaChan p_trigSrc, env)).1.numChannelsEnabled
      ≤ 16 ∧
    ∀ st ∈ runEnableStores K ops (AdcClass.new p_device p_irqn p_dmaChan p_trigSrc, env),
      (st.1 = Table.inputRegisters → st.2 < 32) ∧
      (st.1 ≠ Table.inputRegisters → st.1 ≠ Table.resultsByChannel → st.2 < 16) :=
  run_count_le K ops _ (Nat.zero_le 16)

/-! ### Channel-indexed accesses (C13) -/

/-- A successful `AdcClass::EnableChannel` stores to `resultsByChannel` inside
the array and shifts by less than 32. -/
theorem EnableChannel_channel_access_bounded (K : HwConsts) (now : Nat) (adc : AdcClass)
    (env : Env) (chan : Nat) (fn : Option Nat) (param ticks : Nat)
    (h : (adc.EnableChannel K now env chan fn param ticks).1 = true) :
    AdcClass.EnableChannel.stores adc chan = AdcClass.InternalEnableChannel.stores adc chan ∧
    chan < Table.size Table.resultsByChannel ∧
    AdcClass.InternalEnableChannel.shift chan < 32 := by
  unfold AdcClass.EnableChannel at h
  unfold AdcClass.EnableChannel.stores
  by_cases hg : adc.numChannelsEnabled = MaxChannels ∨ chan ≥ MaxChannels
  · rw [if_pos hg] at h; cases h
  · rw [if_neg hg]
    unfold MaxChannels at hg
    have hsz : Table.size Table.resultsByChannel = 16 := rfl
    rw [hsz]
    unfold AdcClass.InternalEnableChannel.shift
    exact ⟨rfl, by omega, by omega⟩

/-- A successful `AdcClass::EnableTemperatureSensor` stores to
`resultsByChannel` at the index `sensorNumber + ADC_INPUTCTRL_MUXPOS_PTAT_Val`
(modulo `2^32`), whatever that is. -/
theorem EnableTemperatureSensor_channel_store (K : HwConsts) (now : Nat) (adc : AdcClass)
    (env : Env) (sn : Nat) (fn : Option Nat) (param ticks : Nat)
    (h : (adc.EnableTemperatureSensor K now env sn fn param ticks).1 = true) :
    (Table.resultsByChannel, (sn + K.ADC_INPUTCTRL_MUXPOS_PTAT_Val) % twoPow32)
      ∈ AdcClass.EnableTemperatureSensor.stores K adc sn := by
  unfold AdcClass.EnableTemperatureSensor at h
  unfold AdcClass.EnableTemperatureSensor.stores
  by_cases hg : adc.numChannelsEnabled = MaxChannels ∨ sn ≥ 2
  · rw [if_pos hg] at h; cases h
  · rw [if_neg hg]
    simp [AdcClass.InternalEnableChannel.stores]

/-- C13, evaluated at a failing input.  With the device header's value 28 of
`ADC_INPUTCTRL_MUXPOS_PTAT_Val`, `EnableTemperatureSensor` for sensor 0 on
the freshly constructed `Adc0` returns true, and its store to
`resultsByChannel` is at index 28, outside the 16 elements of the array;
the shift amount 28 is below 32. -/
theorem C13_temperature_sensor_store_outside_table :
    (Adc0.EnableTemperatureSensor same51 0 Env.start 0 none 0 0).1 = true ∧
    (Table.resultsByChannel, 28) ∈ AdcClass.EnableTemperatureSensor.stores same51 Adc0 0 ∧
    ¬ 28 < Table.size Table.resultsByChannel ∧
    Adc0.resultsByChannel.length = 16 ∧
    AdcClass.InternalEnableChannel.shift 28 < 32 := by
  decide

/-! ### `noChannels` and the count (C14) -/

theorem InternalEnableChannel_state_ne_noChannels (K : HwConsts) (now : Nat) (adc : AdcClass)
    (env : Env) (chan refCtrl : Nat) (fn : Option Nat) (param ticks : Nat)
    (hinv : adc.state = State.noChannels ↔ adc.numChannelsEnabled = 0) :
    (adc.InternalEnableChannel K now env chan refCtrl fn param ticks).2.1.state
      ≠ State.noChannels := by
  by_cases h0 : adc.numChannelsEnabled = 0
  · unfold AdcClass.InternalEnableChannel
    simp [h0]
  · rw [(InternalEnableChannel_state_of_pos K now adc env chan refCtrl fn param ticks h0).1]
    exact fun h => h0 (hinv.mp h)

/-- An admissible operation keeps `state = noChannels` equivalent to a count
of zero. -/
theorem apply_keeps_noChannels_iff (K : HwConsts) (op : Op) (adc : AdcClass) (env : Env)
    (hadm : op.admissible adc = true)
    (hinv : adc.state = State.noChannels ↔ adc.numChannelsEnabled = 0) :
    ((op.apply K adc env).2.1.state = State.noChannels ↔
      (op.apply K adc env).2.1.numChannelsEnabled = 0) := by
  cases op with
  | EnableChannel now chan fn param t =>
    simp only [Op.apply, AdcClass.EnableChannel]
    split
    · exact hinv
    · have h1 := InternalEnableChannel_state_ne_noChannels K now adc env chan
        K.ADC_REFCTRL_REFSEL_INTVCC1 fn param t hinv
      have h2 := (InternalEnableChannel_fields K now adc env chan
        K.ADC_REFCTRL_REFSEL_INTVCC1 fn param t).1
      constructor
      · intro h; exact absurd h h1
      · intro h; omega
  | EnableTemperatureSensor now sn fn param t =>
    simp only [Op.apply, AdcClass.EnableTemperatureSensor]
    split
    · exact hinv
    · have h1 := InternalEnableChannel_state_ne_noChannels K now adc env
        ((sn + K.ADC_INPUTCTRL_MUXPOS_PTAT_Val) % twoPow32)
        K.ADC_REFCTRL_REFSEL_INTVCC1 fn param t hinv
      have h2 := (InternalEnableChannel_fields K now adc env
        ((sn + K.ADC_INPUTCTRL_MUXPOS_PTAT_Val) % twoPow32)
        K.ADC_REFCTRL_REFSEL_INTVCC1 fn param t).1
      constructor
      · intro h; exact absurd h h1
      · intro h; omega
  | StartConversion p =>
    simp only [Op.apply, AdcClass.StartConversion]
    split
    · exact hinv
    · rename_i hg
      constructor
      · intro h; cases h
      · intro h; exact absurd (Or.inl h) hg
  | ExecuteCallbacks now =>
    simp only [Op.apply]
    rw [(ExecuteCallbacks_state now adc env).1, (ExecuteCallbacks_state now adc env).2]
    exact hinv
  | ResultReadyCallback codes =>
    simp only [Op.apply]
    simp only [Op.admissible, decide_eq_true_eq] at hadm
    rw [(ResultReadyCallback_fields _ env).1, (ResultReadyCallback_fields _ env).2,
      (dmaDrain_fields adc codes).1]
    constructor
    · intro h; cases h
    · intro h
      have := hinv.mpr h
      rw [hadm] at this
      cases this

theorem run_keeps_noChannels_iff (K : HwConsts) (ops : List Op) (s : AdcClass × Env)
    (hadm : runAdmissible K ops s = true)
    (hinv : s.1.state = State.noChannels ↔ s.1.numChannelsEnabled = 0) :
    ((run K ops s).1.state = State.noChannels ↔ (run K ops s).1.numChannelsEnabled = 0) := by
  induction ops generalizing s with
  | nil => exact hinv
  | cons op ops ih =>
    rw [runAdmissible, Bool.and_eq_true] at hadm
    rw [run]
    exact ih _ hadm.2 (apply_keeps_noChannels_iff K op s.1 s.2 hadm.1 hinv)

theorem StartConversion_true_of (adc : AdcClass) (env : Env) (p : Option Nat)
    (hn : adc.numChannelsEnabled ≠ 0) (hs : adc.state ≠ State.converting) :
    (adc.StartConversion env p).1 = true := by
  unfold AdcClass.StartConversion
  rw [if_neg (by rintro (h | h); exact hn h; exact hs h)]

theorem StartConversion_true_effect (adc : AdcClass) (env : Env) (p : Option Nat)
    (h : (adc.StartConversion env p).1 = true) :
    (adc.StartConversion env p).2.1.state = State.converting ∧
    (adc.StartConversion env p).2.2.conversionsStarted
      = (env.conversionsStarted + 1) % 4294967296 := by
  unfold AdcClass.StartConversion at h ⊢
  by_cases hg : adc.numChannelsEnabled = 0 ∨ adc.state = State.converting
  · rw [if_pos hg] at h; cases h
  · rw [if_neg hg]
    exact ⟨rfl, rfl⟩

theorem ExecuteCallbacks_body_started (now : Nat) (acc : AdcClass × Env) (i : Nat) :
    (AdcClass.ExecuteCallbacks.body now acc i).2.conversionsStarted
      = acc.2.conversionsStarted := by
  unfold AdcClass.ExecuteCallbacks.body
  simp only []
  split
  · split <;> rfl
  · rfl

theorem ExecuteCallbacks_started (now : Nat) (adc : AdcClass) (env : Env) :
    (adc.ExecuteCallbacks now env).2.conversionsStarted = env.conversionsStarted := by
  unfold AdcClass.ExecuteCallbacks
  generalize List.range adc.numChannelsEnabled = l
  have key : ∀ (l : List Nat) (acc : AdcClass × Env),
      (l.foldl (AdcClass.ExecuteCallbacks.body now) acc).2.conversionsStarted
        = acc.2.conversionsStarted := by
    intro l
    induction l with
    | nil => intro acc; rfl
    | cons i l ih =>
      intro acc
      rw [List.foldl_cons, ih, ExecuteCallbacks_body_started]
  exact key l (adc, env)

/-- C14. In every state reached from a freshly constructed unit by a sequence
of enable calls, `StartConversion`, `ExecuteCallbacks` and
`ResultReadyCallback`, the last delivered only while the unit is
converting, `state = noChannels` holds exactly when the count is zero.
Consequently the `StartConversion` call the scheduler makes in such a state
returns true: directly when the state is `idle` or `starting`, and after
`ExecuteCallbacks` when the state is `ready`; so the visit's
`conversionStarted = true` always goes with a conversion that was started. -/
theorem C14_noChannels_iff_no_channel (K : HwConsts)
    (p_device p_irqn p_dmaChan p_trigSrc : Nat) (env : Env) (ops : List Op) (now task : Nat)
    (hadm : runAdmissible K ops (AdcClass.new p_device p_irqn p_dmaChan p_trigSrc, env) = true) :
    ((run K ops (AdcClass.new p_device p_irqn p_dmaChan p_trigSrc, env)).1.state
        = State.noChannels ↔
      (run K ops (AdcClass.new p_device p_irqn p_dmaChan p_trigSrc, env)).1.numChannelsEnabled
        = 0) ∧
    ((run K ops (AdcClass.new p_device p_irqn p_dmaChan p_trigSrc, env)).1.state = State.idle ∨
      (run K ops (AdcClass.new p_device p_irqn p_dmaChan p_trigSrc, env)).1.state
        = State.starting →
      ((run K ops (AdcClass.new p_device p_irqn p_dmaChan p_trigSrc, env)).1.StartConversion
        (run K ops (AdcClass.new p_device p_irqn p_dmaChan p_trigSrc, env)).2
        (some task)).1 = true) ∧
    ((run K ops (AdcClass.new p_device p_irqn p_dmaChan p_trigSrc, env)).1.state = State.ready →
      (((run K ops (AdcClass.new p_device p_irqn p_dmaChan p_trigSrc, env)).1.ExecuteCallbacks
          now (run K ops (AdcClass.new p_device p_irqn p_dmaChan p_trigSrc, env)).2).1.StartConversion
        ((run K ops (AdcClass.new p_device p_irqn p_dmaChan p_trigSrc, env)).1.ExecuteCallbacks
          now (run K ops (AdcClass.new p_device p_irqn p_dmaChan p_trigSrc, env)).2).2
        (some task)).1 = true) ∧
    ((AnalogIn.AinLoop.visit now task
        (run K ops (AdcClass.new p_device p_irqn p_dmaChan p_trigSrc, env)).1
        (run K ops (AdcClass.new p_device p_irqn p_dmaChan p_trigSrc, env)).2).1 = true →
      (AnalogIn.AinLoop.visit now task
        (run K ops (AdcClass.new p_device p_irqn p_dmaChan p_trigSrc, env)).1
        (run K ops (AdcClass.new p_device p_irqn p_dmaChan p_trigSrc, env)).2).2.1.state
        = State.converting ∧
      (AnalogIn.AinLoop.visit now task
        (run K ops (AdcClass.new p_device p_irqn p_dmaChan p_trigSrc, env)).1
        (run K ops (AdcClass.new p_device p_irqn p_dmaChan p_trigSrc, env)).2).2.2.conversionsStarted
        = ((run K ops
            (AdcClass.new p_device p_irqn p_dmaChan p_trigSrc, env)).2.conversionsStarted
          + 1) % 4294967296) := by
  have hinv := run_keeps_noChannels_iff K ops
    (AdcClass.new p_device p_irqn p_dmaChan p_trigSrc, env) hadm
    (by simp [AdcClass.new])
  generalize run K ops (AdcClass.new p_device p_irqn p_dmaChan p_trigSrc, env) = s at hinv ⊢
  obtain ⟨a, e⟩ := s
  simp only at hinv ⊢
  have hidle : a.state = State.idle ∨ a.state = State.starting →
      (a.StartConversion e (some task)).1 = true := by
    intro hst
    apply StartConversion_true_of
    · intro h0
      have := hinv.mpr h0
      rcases hst with hst | hst <;> rw [hst] at this <;> cases this
    · rcases hst with hst | hst <;> rw [hst] <;> decide
  have hready : a.state = State.ready →
      ((a.ExecuteCallbacks now e).1.StartConversion (a.ExecuteCallbacks now e).2
        (some task)).1 = true := by
    intro hst
    obtain ⟨h1, h2⟩ := ExecuteCallbacks_state now a e
    apply StartConversion_true_of
    · rw [h2]
      intro h0
      have := hinv.mpr h0
      rw [hst] at this
      cases this
    · rw [h1, hst]; decide
  refine ⟨hinv, hidle, hready, ?_⟩
  intro hv
  rcases (visit_flag now task a e).mp hv with hst | hst | hst
  · have hr := StartConversion_true_effect _ _ _ (hready hst)
    rw [ExecuteCallbacks_started] at hr
    unfold AnalogIn.AinLoop.visit AdcClass.GetState
    rw [hst]
    exact hr
  · have hr := StartConversion_true_effect _ _ _ (hidle (Or.inl hst))
    unfold AnalogIn.AinLoop.visit AdcClass.GetState
    rw [hst]
    exact hr
  · have hr := StartConversion_true_effect _ _ _ (hidle (Or.inr hst))
    unfold AnalogIn.AinLoop.visit AdcClass.GetState
    rw [hst]
    exact hr

/-- C14 at a concrete input: two enable calls on `Adc0` followed by two
complete scans, each completion delivered while converting. -/
theorem C14_noChannels_iff_no_channel_witness :
    runAdmissible same51 twoScans (Adc0, Env.start) = true ∧
    ((run same51 twoScans (Adc0, Env.start)).1.state = State.noChannels ↔
      (run same51 twoScans (Adc0, Env.start)).1.numChannelsEnabled = 0) :=
  ⟨by decide,
    (C14_noChannels_iff_no_channel same51 0 0 4 0 Env.start twoScans 50 9 (by decide)).1⟩

end Duet3Expansion
